import Mathlib

/-!
# Covariant Script `any` (src/include/covscript/any.hpp)

A shallow embedding of the reference-counted, copy-on-write value container
`cs_impl::any`, its `proxy` cell, the type-erased `any_object` instances and the
non-owning `any_holder`.

Pointers are natural-number addresses into three stores (instances, proxies and
`any` variables); a null pointer is `none`.  An exception leaves the store as it
is at the `throw`; a null or dangling dereference is reported as `undefined`.
-/

namespace cs_impl

/-! ## Stores -/

/-- Read the cell at address `a`; `none` when nothing is allocated there. -/
def load {α : Type} : List (Option α) → Nat → Option α
  | [], _ => none
  | x :: _, 0 => x
  | _ :: r, n + 1 => load r n

/-- Overwrite the cell at address `a`, growing the store when needed. -/
def put {α : Type} : List (Option α) → Nat → Option α → List (Option α)
  | [], 0, v => [v]
  | [], n + 1, v => none :: put [] n v
  | _ :: r, 0, v => v :: r
  | x :: r, n + 1, v => x :: put r n v

/-- Modelled from the spec: `cov::allocator::alloc` (covscript/mozart/memory.hpp is not
part of the sources) hands out a block that is not in use, reusing released blocks;
here the lowest address whose cell is free. -/
def fresh {α : Type} : List (Option α) → Nat
  | [] => 0
  | none :: _ => 0
  | some _ :: r => fresh r + 1

/-! ## Data model -/

inductive object_status where
  | normal | recycle | deposit | reachable
  deriving DecidableEq, Repr

inductive object_authority where
  | normal | protect | constant
  deriving DecidableEq, Repr

/-- The order `normal < protect < constant` of the authority levels. -/
def object_authority.rank : object_authority → Nat
  | .normal => 0
  | .protect => 1
  | .constant => 2

/-- An `any_obj_instance<T>`: the two public fields of `any_object`, the identity of `T`
(what `type()` returns) and the payload `mDat`. -/
structure any_object (V : Type) where
  status : object_status := .normal
  authority : object_authority := .normal
  type : Nat
  mDat : V
  deriving DecidableEq, Repr

/-- The cell `any::proxy`: a reference count (`std::size_t`) and a nullable instance pointer. -/
structure proxy where
  refcount : Nat := 1
  data : Option Nat := none
  deriving DecidableEq, Repr

/-- An `any_holder`: a nullable, non-owning instance pointer. -/
structure any_holder where
  object : Option Nat := none
  deriving DecidableEq, Repr

/-- The whole store: live instances, live proxies, and the `any` variables, each of
which holds its nullable proxy pointer `mDat`. -/
structure State (V : Type) where
  objects : List (Option (any_object V)) := []
  proxies : List (Option proxy) := []
  handles : List (Option (Option Nat)) := []
  deriving DecidableEq, Repr

/-- The exception classes thrown by `any`, each with its message. -/
inductive Exception where
  | lang_error (what : String)
  | internal_error (what : String)
  | runtime_error (what : String)
  | error (what : String)
  deriving DecidableEq, Repr

/-- How a call ends: normally, by an exception, or in undefined behaviour
(a null or dangling pointer was dereferenced). -/
inductive Outcome (α : Type) where
  | ok (value : α)
  | throw (e : Exception)
  | undefined
  deriving DecidableEq, Repr

/-- Whether the call ended by throwing. -/
def Outcome.raised {α : Type} : Outcome α → Bool
  | .throw _ => true
  | _ => false

/-- The number of `typeid(std::string)`.  Types are numbered: `std::string` is 1,
`std::type_index` is 2, `std::type_info` is 3, `char[N]` is `2 * N + 4`, and every other
number stands for a type of its own (`int` is 0 in the examples). -/
def typeid_string : Nat := 1

/-- The number of `typeid(std::type_index)`. -/
def typeid_type_index : Nat := 2

/-- The number of `typeid(std::type_info)`. -/
def typeid_type_info : Nat := 3

/-- The type `U` for which `any_obj_instance<T>` is an `any_obj_instance<U>`:
`any_obj_instance<char[N]>` derives from `any_obj_instance<std::string>` and
`any_obj_instance<std::type_info>` from `any_obj_instance<std::type_index>`, inheriting
`type()` and the static `allocator`; every other `T` has the primary template. -/
def instance_type (T : Nat) : Nat :=
  if T = typeid_type_info then typeid_type_index
  else if 4 ≤ T ∧ T % 2 = 0 then typeid_string
  else T

/-- The per-type customisation points `cs_impl::compare`, `cs_impl::hash<T>` and
`cs_impl::get_ext<T>` (declared outside this header), and the hash of the null pointer. -/
structure Traits (V : Type) where
  compare : Nat → V → V → Bool
  hash : Nat → V → Nat
  hash_null : Nat
  get_ext : Nat → Except Exception Nat

/-- Arithmetic of `std::size_t`. -/
def size_max : Nat := 2 ^ 64

/-- The value of `++n` on a `std::size_t`. -/
def size_inc (n : Nat) : Nat := (n + 1) % size_max

/-- The value of `--n` on a `std::size_t`. -/
def size_dec (n : Nat) : Nat := (n + (size_max - 1)) % size_max

/-! ## Instances and proxies -/

/-- `this->mDat->data` of a live proxy `p`: the proxy, the instance address and the instance. -/
def State.target {V : Type} (s : State V) (p : Nat) : Option (proxy × Nat × any_object V) :=
  match load s.proxies p with
  | none => none
  | some pr =>
    match pr.data with
    | none => none
    | some o =>
      match load s.objects o with
      | none => none
      | some ob => some (pr, o, ob)

/-- `any_obj_instance<T>::duplicate`: a new instance of the same type holding a copy of the
payload; status and authority take their defaults. -/
def any_object.duplicate {V : Type} (s : State V) (ob : any_object V) : Nat × State V :=
  let o := fresh s.objects
  (o, { s with objects := put s.objects o (some { type := ob.type, mDat := ob.mDat }) })

/-- `any_obj_instance<T>::allocator.alloc(dat)`: a new instance around `dat`.  The allocator
of `any_obj_instance<T>` builds an `any_obj_instance<instance_type T>`, whose `type()` is
`instance_type T`. -/
def any_object.alloc {V : Type} (s : State V) (T : Nat) (dat : V) : Nat × State V :=
  let o := fresh s.objects
  (o, { s with objects := put s.objects o (some { type := instance_type T, mDat := dat }) })

/-- `any_obj_instance<T>::kill`: give the instance back to its pool. -/
def any_object.kill {V : Type} (s : State V) (o : Nat) : Outcome Unit × State V :=
  match load s.objects o with
  | none => (.undefined, s)
  | some _ => (.ok (), { s with objects := put s.objects o none })

/-- `any_obj_instance<T>::compare`. -/
def any_object.compare {V : Type} (tr : Traits V) (this obj : any_object V) : Bool :=
  if obj.type = this.type then tr.compare this.type this.mDat obj.mDat else false

/-- `any_obj_instance<T>::hash`. -/
def any_object.hash {V : Type} (tr : Traits V) (this : any_object V) : Nat :=
  tr.hash this.type this.mDat

/-- `allocator.alloc(rc, d)` of a proxy: the two-argument constructor. -/
def proxy.alloc {V : Type} (s : State V) (rc : Nat) (d : Option Nat) : Nat × State V :=
  let p := fresh s.proxies
  (p, { s with proxies := put s.proxies p (some { refcount := rc, data := d }) })

/-- `allocator.alloc(a, rc, d)` of a proxy: the constructor that sets `d->authority = a`. -/
def proxy.alloc_authority {V : Type} (s : State V) (a : object_authority) (rc : Nat)
    (d : Option Nat) : Outcome Nat × State V :=
  match d with
  | none => (.undefined, s)
  | some o =>
    match load s.objects o with
    | none => (.undefined, s)
    | some ob =>
      let p := fresh s.proxies
      (.ok p, { s with
        proxies := put s.proxies p (some { refcount := rc, data := d })
        objects := put s.objects o (some { ob with authority := a }) })

/-- `allocator.free(p)` of a proxy: run `~proxy`, then release the cell. -/
def proxy.free {V : Type} (s : State V) (p : Nat) : Outcome Unit × State V :=
  match load s.proxies p with
  | none => (.undefined, s)
  | some pr =>
    match pr.data with
    | none => (.ok (), { s with proxies := put s.proxies p none })
    | some o =>
      match load s.objects o with
      | none => (.undefined, s)
      | some ob =>
        if ob.status = .deposit then
          (.ok (), { s with
            objects := put s.objects o (some { ob with status := .normal })
            proxies := put s.proxies p none })
        else
          match any_object.kill s o with
          | (.ok _, s1) => (.ok (), { s1 with proxies := put s1.proxies p none })
          | (.throw e, s1) => (.throw e, s1)
          | (.undefined, s1) => (.undefined, s1)

/-- `any_holder::replace`. -/
def any_holder.replace {V : Type} (s : State V) (this : any_holder) (obj : Option Nat) :
    Outcome any_holder × State V :=
  match this.object with
  | none => (.undefined, s)
  | some o =>
    match load s.objects o with
    | none => (.undefined, s)
    | some ob =>
      if ob.status = .deposit then
        (.ok { object := obj },
          { s with objects := put s.objects o (some { ob with status := .normal }) })
      else
        match any_object.kill s o with
        | (.ok _, s1) => (.ok { object := obj }, s1)
        | (.throw e, s1) => (.throw e, s1)
        | (.undefined, s1) => (.undefined, s1)


/-! ## The handle `any` -/

namespace any

/-- `any::duplicate`: share the proxy, counting one more owner. -/
def duplicate {V : Type} (s : State V) (this : Nat) : Outcome (Option Nat) × State V :=
  match load s.handles this with
  | none => (.undefined, s)
  | some none => (.ok none, s)
  | some (some p) =>
    match load s.proxies p with
    | none => (.undefined, s)
    | some pr =>
      (.ok (some p),
        { s with proxies := put s.proxies p (some { pr with refcount := size_inc pr.refcount }) })

/-- `any::recycle`: give up the proxy, releasing it when the count drops to zero. -/
def recycle {V : Type} (s : State V) (this : Nat) : Outcome Unit × State V :=
  match load s.handles this with
  | none => (.undefined, s)
  | some none => (.ok (), s)
  | some (some p) =>
    match load s.proxies p with
    | none => (.undefined, s)
    | some pr =>
      let s1 : State V :=
        { s with proxies := put s.proxies p (some { pr with refcount := size_dec pr.refcount }) }
      if size_dec pr.refcount = 0 then
        match proxy.free s1 p with
        | (.ok _, s2) => (.ok (), { s2 with handles := put s2.handles this (some none) })
        | (.throw e, s2) => (.throw e, s2)
        | (.undefined, s2) => (.undefined, s2)
      else (.ok (), s1)

/-- `any::swap(any &, bool)`; the overload taking `any &&` has the same body. -/
def swap {V : Type} (s : State V) (this obj : Nat) (raw : Bool) : Outcome Unit × State V :=
  match load s.handles this, load s.handles obj with
  | some a, some b =>
    match a, b, raw with
    | some p, some q, true =>
      match s.target p with
      | none => (.undefined, s)
      | some (pr, _, ob1) =>
        if ob1.authority ≠ .normal then
          (.throw (.lang_error "Swap two variable which has limits of authority."), s)
        else
          match s.target q with
          | none => (.undefined, s)
          | some (qr, _, ob2) =>
            if ob2.authority ≠ .normal then
              (.throw (.lang_error "Swap two variable which has limits of authority."), s)
            else
              let s1 : State V := { s with proxies := put s.proxies p (some { pr with data := qr.data }) }
              (.ok (), { s1 with proxies := put s1.proxies q (some { qr with data := pr.data }) })
    | _, _, _ =>
      let s1 : State V := { s with handles := put s.handles this (some b) }
      (.ok (), { s1 with handles := put s1.handles obj (some a) })
  | _, _ => (.undefined, s)

/-- `any::clone`. -/
def clone {V : Type} (s : State V) (this : Nat) : Outcome Unit × State V :=
  match load s.handles this with
  | none => (.undefined, s)
  | some none => (.ok (), s)
  | some (some p) =>
    match s.target p with
    | none => (.undefined, s)
    | some (_, _, ob) =>
      let (o1, s1) := any_object.duplicate s ob
      let (p1, s2) := proxy.alloc s1 1 (some o1)
      match recycle s2 this with
      | (.ok _, s3) => (.ok (), { s3 with handles := put s3.handles this (some (some p1)) })
      | (.throw e, s3) => (.throw e, s3)
      | (.undefined, s3) => (.undefined, s3)

/-- `any::try_move`. -/
def try_move {V : Type} (s : State V) (this : Nat) : Outcome Unit × State V :=
  match load s.handles this with
  | none => (.undefined, s)
  | some none => (.ok (), s)
  | some (some p) =>
    match load s.proxies p with
    | none => (.undefined, s)
    | some pr =>
      if pr.refcount = 1 then
        match s.target p with
        | none => (.undefined, s)
        | some (_, o, ob) =>
          if ob.status = .normal then
            let ob1 : any_object V := { ob with authority := .normal }
            (.ok (), { s with objects := put s.objects o (some { ob1 with status := .recycle }) })
          else (.ok (), s)
      else (.ok (), s)

/-- `any::usable`. -/
def usable {V : Type} (s : State V) (this : Nat) : Outcome Bool :=
  match load s.handles this with
  | none => .undefined
  | some m => .ok m.isSome

/-- Bring a new `any` variable into being around the proxy pointer `dat`
(the private constructor `any(proxy *)`). -/
def ctor_proxy {V : Type} (s : State V) (dat : Option Nat) : Nat × State V :=
  let h := fresh s.handles
  (h, { s with handles := put s.handles h (some dat) })

/-- `any::make<T>`. -/
def make {V : Type} (s : State V) (T : Nat) (dat : V) : Outcome Nat × State V :=
  let (o, s1) := any_object.alloc s T dat
  let (p, s2) := proxy.alloc s1 1 (some o)
  let (h, s3) := ctor_proxy s2 (some p)
  (.ok h, s3)

/-- `any::make_protect<T>`. -/
def make_protect {V : Type} (s : State V) (T : Nat) (dat : V) : Outcome Nat × State V :=
  let (o, s1) := any_object.alloc s T dat
  match proxy.alloc_authority s1 .protect 1 (some o) with
  | (.ok p, s2) =>
    let (h, s3) := ctor_proxy s2 (some p)
    (.ok h, s3)
  | (.throw e, s2) => (.throw e, s2)
  | (.undefined, s2) => (.undefined, s2)

/-- `any::make_constant<T>`. -/
def make_constant {V : Type} (s : State V) (T : Nat) (dat : V) : Outcome Nat × State V :=
  let (o, s1) := any_object.alloc s T dat
  match proxy.alloc_authority s1 .constant 1 (some o) with
  | (.ok p, s2) =>
    let (h, s3) := ctor_proxy s2 (some p)
    (.ok h, s3)
  | (.throw e, s2) => (.throw e, s2)
  | (.undefined, s2) => (.undefined, s2)

/-- The default constructor `any()`. -/
def ctor_default {V : Type} (s : State V) : Nat × State V :=
  ctor_proxy s none

/-- The constructor `any(const any_holder &)`. -/
def ctor_holder {V : Type} (s : State V) (holder : any_holder) : Outcome Nat × State V :=
  let (p, s1) := proxy.alloc s 1 holder.object
  let (h, s2) := ctor_proxy s1 (some p)
  match holder.object with
  | none => (.undefined, s2)
  | some o =>
    match load s2.objects o with
    | none => (.undefined, s2)
    | some ob =>
      (.ok h, { s2 with objects := put s2.objects o (some { ob with status := .deposit }) })

/-- The constructor `any(const T &)`. -/
def ctor_value {V : Type} (s : State V) (T : Nat) (dat : V) : Nat × State V :=
  let (o, s1) := any_object.alloc s T dat
  let (p, s2) := proxy.alloc s1 1 (some o)
  ctor_proxy s2 (some p)

/-- The copy constructor `any(const any &)`. -/
def ctor_copy {V : Type} (s : State V) (v : Nat) : Outcome Nat × State V :=
  match duplicate s v with
  | (.ok m, s1) =>
    let (h, s2) := ctor_proxy s1 m
    (.ok h, s2)
  | (.throw e, s1) => (.throw e, s1)
  | (.undefined, s1) => (.undefined, s1)

/-- The move constructor `any(any &&)`. -/
def ctor_move {V : Type} (s : State V) (v : Nat) : Outcome Nat × State V :=
  let (h, s1) := ctor_proxy s none
  match swap s1 h v false with
  | (.ok _, s2) => (.ok h, s2)
  | (.throw e, s2) => (.throw e, s2)
  | (.undefined, s2) => (.undefined, s2)

/-- The destructor `~any`: recycle, after which the variable is gone. -/
def dtor {V : Type} (s : State V) (this : Nat) : Outcome Unit × State V :=
  match recycle s this with
  | (.ok _, s1) => (.ok (), { s1 with handles := put s1.handles this none })
  | (.throw e, s1) => (.throw e, s1)
  | (.undefined, s1) => (.undefined, s1)

/-- `any::share_object`. -/
def share_object {V : Type} (s : State V) (this : Nat) : Outcome Nat × State V :=
  match load s.handles this with
  | none => (.undefined, s)
  | some none => (.throw (.internal_error "Share null object from variable."), s)
  | some (some p) =>
    match s.target p with
    | none => (.undefined, s)
    | some (_, o, ob) =>
      (.ok o, { s with objects := put s.objects o (some { ob with status := .deposit }) })

/-- `any::type`: the stored type, or `none` for `typeid(void)`. -/
def type {V : Type} (s : State V) (this : Nat) : Outcome (Option Nat) :=
  match load s.handles this with
  | none => .undefined
  | some none => .ok none
  | some (some p) =>
    match s.target p with
    | none => .undefined
    | some (_, _, ob) => .ok (some ob.type)

/-- `any::hash`. -/
def hash {V : Type} (tr : Traits V) (s : State V) (this : Nat) : Outcome Nat :=
  match load s.handles this with
  | none => .undefined
  | some none => .ok tr.hash_null
  | some (some p) =>
    match s.target p with
    | none => .undefined
    | some (_, _, ob) => .ok (any_object.hash tr ob)

/-- `any::get_ext`. -/
def get_ext {V : Type} (tr : Traits V) (s : State V) (this : Nat) : Outcome Nat × State V :=
  match load s.handles this with
  | none => (.undefined, s)
  | some none => (.throw (.runtime_error "Target type does not support extensions."), s)
  | some (some p) =>
    match s.target p with
    | none => (.undefined, s)
    | some (_, _, ob) =>
      match tr.get_ext ob.type with
      | .ok n => (.ok n, s)
      | .error e => (.throw e, s)

/-- `any::is_rvalue`. -/
def is_rvalue {V : Type} (s : State V) (this : Nat) : Outcome Bool :=
  match load s.handles this with
  | none => .undefined
  | some none => .ok false
  | some (some p) =>
    match s.target p with
    | none => .undefined
    | some (_, _, ob) => .ok (decide (ob.status = .recycle))

/-- `any::mark_as_rvalue`. -/
def mark_as_rvalue {V : Type} (s : State V) (this : Nat) (value : Bool) :
    Outcome Unit × State V :=
  match load s.handles this with
  | none => (.undefined, s)
  | some none => (.ok (), s)
  | some (some p) =>
    match s.target p with
    | none => (.undefined, s)
    | some (_, o, ob) =>
      if ob.status ≠ .deposit then
        let st : object_status := if value then .recycle else .normal
        (.ok (), { s with objects := put s.objects o (some { ob with status := st }) })
      else (.ok (), s)

/-- `any::is_protect`. -/
def is_protect {V : Type} (s : State V) (this : Nat) : Outcome Bool :=
  match load s.handles this with
  | none => .undefined
  | some none => .ok false
  | some (some p) =>
    match s.target p with
    | none => .undefined
    | some (_, _, ob) => .ok (decide (ob.authority ≠ .normal))

/-- `any::is_constant`. -/
def is_constant {V : Type} (s : State V) (this : Nat) : Outcome Bool :=
  match load s.handles this with
  | none => .undefined
  | some none => .ok false
  | some (some p) =>
    match s.target p with
    | none => .undefined
    | some (_, _, ob) => .ok (decide (ob.authority = .constant))

/-- `any::protect`. -/
def protect {V : Type} (s : State V) (this : Nat) : Outcome Unit × State V :=
  match load s.handles this with
  | none => (.undefined, s)
  | some none => (.ok (), s)
  | some (some p) =>
    match s.target p with
    | none => (.undefined, s)
    | some (_, o, ob) =>
      if ob.authority ≠ .normal then
        (.throw (.internal_error "Downgrade object authority."), s)
      else
        (.ok (), { s with objects := put s.objects o (some { ob with authority := .protect }) })

/-- `any::constant`. -/
def constant {V : Type} (s : State V) (this : Nat) : Outcome Unit × State V :=
  match load s.handles this with
  | none => (.undefined, s)
  | some none => (.ok (), s)
  | some (some p) =>
    match s.target p with
    | none => (.undefined, s)
    | some (_, o, ob) =>
      (.ok (), { s with objects := put s.objects o (some { ob with authority := .constant }) })

/-- The copy assignment `any::operator=(const any &)`. -/
def operator_assign {V : Type} (s : State V) (this var : Nat) : Outcome Unit × State V :=
  if var ≠ this then
    match recycle s this with
    | (.ok _, s1) =>
      match duplicate s1 var with
      | (.ok m, s2) => (.ok (), { s2 with handles := put s2.handles this (some m) })
      | (.throw e, s2) => (.throw e, s2)
      | (.undefined, s2) => (.undefined, s2)
    | (.throw e, s1) => (.throw e, s1)
    | (.undefined, s1) => (.undefined, s1)
  else
    match load s.handles this with
    | none => (.undefined, s)
    | some _ => (.ok (), s)

/-- The move assignment `any::operator=(any &&)`. -/
def operator_assign_move {V : Type} (s : State V) (this var : Nat) : Outcome Unit × State V :=
  if var ≠ this then swap s this var false
  else
    match load s.handles this with
    | none => (.undefined, s)
    | some _ => (.ok (), s)

/-- `any::compare`. -/
def compare {V : Type} (tr : Traits V) (s : State V) (this var : Nat) : Outcome Bool :=
  match load s.handles this, load s.handles var with
  | some (some p), some (some q) =>
    match s.target p, s.target q with
    | some (_, _, ob1), some (_, _, ob2) => .ok (any_object.compare tr ob1 ob2)
    | _, _ => .undefined
  | some a, some b => .ok (!a.isSome && !b.isSome)
  | _, _ => .undefined

/-- `any::operator==`. -/
def operator_eq {V : Type} (tr : Traits V) (s : State V) (this var : Nat) : Outcome Bool :=
  compare tr s this var

/-- `any::operator!=`. -/
def operator_ne {V : Type} (tr : Traits V) (s : State V) (this var : Nat) : Outcome Bool :=
  match compare tr s this var with
  | .ok b => .ok (!b)
  | .throw e => .throw e
  | .undefined => .undefined

/-- The mutable accessor `T &any::val<T>(bool raw)`; the reference it returns is the
address of the instance whose payload it denotes. -/
def val {V : Type} (s : State V) (this : Nat) (T : Nat) (raw : Bool) : Outcome Nat × State V :=
  match type s this with
  | .undefined => (.undefined, s)
  | .throw e => (.throw e, s)
  | .ok ty =>
    if some T ≠ ty then (.throw (.error "E0006"), s)
    else
      match load s.handles this with
      | none => (.undefined, s)
      | some none => (.throw (.error "E0005"), s)
      | some (some p) =>
        match s.target p with
        | none => (.undefined, s)
        | some (_, o, ob) =>
          if ob.authority = .constant then (.throw (.error "E000K"), s)
          else if raw then (.ok o, s)
          else
            match clone s this with
            | (.ok _, s1) =>
              match load s1.handles this with
              | some (some p1) =>
                match s1.target p1 with
                | some (_, o1, _) => (.ok o1, s1)
                | none => (.undefined, s1)
              | _ => (.undefined, s1)
            | (.throw e, s1) => (.throw e, s1)
            | (.undefined, s1) => (.undefined, s1)

/-- The accessor `const T &any::val<T>(bool raw) const`: the payload the returned
reference denotes. -/
def val_const {V : Type} (s : State V) (this : Nat) (T : Nat) (_raw : Bool) : Outcome V :=
  match type s this with
  | .undefined => .undefined
  | .throw e => .throw e
  | .ok ty =>
    if some T ≠ ty then .throw (.error "E0006")
    else
      match load s.handles this with
      | none => .undefined
      | some none => .throw (.error "E0005")
      | some (some p) =>
        match s.target p with
        | none => .undefined
        | some (_, _, ob) => .ok ob.mDat

/-- `any::const_val<T>`: the payload the returned reference denotes. -/
def const_val {V : Type} (s : State V) (this : Nat) (T : Nat) : Outcome V :=
  match type s this with
  | .undefined => .undefined
  | .throw e => .throw e
  | .ok ty =>
    if some T ≠ ty then .throw (.error "E0006")
    else
      match load s.handles this with
      | none => .undefined
      | some none => .throw (.error "E0005")
      | some (some p) =>
        match s.target p with
        | none => .undefined
        | some (_, _, ob) => .ok ob.mDat

/-- A write of `w` through a reference returned by `val<T>`:
`any_obj_instance<T>::data() = w` on the instance at address `o`. -/
def write {V : Type} (s : State V) (o : Nat) (w : V) : Outcome Unit × State V :=
  match load s.objects o with
  | none => (.undefined, s)
  | some ob => (.ok (), { s with objects := put s.objects o (some { ob with mDat := w }) })

/-- `any::assign(const any &, bool)`. -/
def assign {V : Type} (s : State V) (this obj : Nat) (raw : Bool) : Outcome Unit × State V :=
  match load s.handles this, load s.handles obj with
  | some a, some b =>
    if obj ≠ this ∧ b ≠ a then
      match a, b, raw with
      | some p, some q, true =>
        match s.target p with
        | none => (.undefined, s)
        | some (pr, o1, ob1) =>
          if ob1.authority ≠ .normal then (.throw (.error "E000J"), s)
          else
            match s.target q with
            | none => (.undefined, s)
            | some (_, o2, ob2) =>
              if ob2.authority ≠ .normal then (.throw (.error "E000J"), s)
              else
                match any_object.kill s o1 with
                | (.ok _, s1) =>
                  match load s1.objects o2 with
                  | none => (.undefined, s1)
                  | some ob =>
                    let (o3, s2) := any_object.duplicate s1 ob
                    (.ok (), { s2 with proxies := put s2.proxies p (some { pr with data := some o3 }) })
                | (.throw e, s1) => (.throw e, s1)
                | (.undefined, s1) => (.undefined, s1)
      | _, _, _ =>
        match recycle s this with
        | (.ok _, s1) =>
          match b with
          | some q =>
            match s1.target q with
            | none => (.undefined, s1)
            | some (_, _, ob) =>
              let (o3, s2) := any_object.duplicate s1 ob
              let (p3, s3) := proxy.alloc s2 1 (some o3)
              (.ok (), { s3 with handles := put s3.handles this (some (some p3)) })
          | none => (.ok (), { s1 with handles := put s1.handles this (some none) })
        | (.throw e, s1) => (.throw e, s1)
        | (.undefined, s1) => (.undefined, s1)
    else (.ok (), s)
  | _, _ => (.undefined, s)

/-- `any::assign<T>(const T &, bool)`, the value `dat` not being stored in an instance
that the call releases. -/
def assign_value {V : Type} (s : State V) (this : Nat) (T : Nat) (dat : V) (raw : Bool) :
    Outcome Unit × State V :=
  match load s.handles this with
  | none => (.undefined, s)
  | some a =>
    match a, raw with
    | some p, true =>
      match s.target p with
      | none => (.undefined, s)
      | some (pr, o1, ob1) =>
        if ob1.authority ≠ .normal then (.throw (.error "E000J"), s)
        else
          match any_object.kill s o1 with
          | (.ok _, s1) =>
            let (o3, s2) := any_object.alloc s1 T dat
            (.ok (), { s2 with proxies := put s2.proxies p (some { pr with data := some o3 }) })
          | (.throw e, s1) => (.throw e, s1)
          | (.undefined, s1) => (.undefined, s1)
    | _, _ =>
      match recycle s this with
      | (.ok _, s1) =>
        let (o3, s2) := any_object.alloc s1 T dat
        let (p3, s3) := proxy.alloc s2 1 (some o3)
        (.ok (), { s3 with handles := put s3.handles this (some (some p3)) })
      | (.throw e, s1) => (.throw e, s1)
      | (.undefined, s1) => (.undefined, s1)

end any

/-! ## Relations between stores -/

/-- Authority does not decrease at any address that holds an instance before and after. -/
def AuthMono {V : Type} (m m1 : List (Option (any_object V))) : Prop :=
  ∀ x ob ob1, load m x = some ob → load m1 x = some ob1 →
    ob.authority.rank ≤ ob1.authority.rank

/-- Every instance is kept, with an authority at least as high. -/
def Kept {V : Type} (m m1 : List (Option (any_object V))) : Prop :=
  ∀ x ob, load m x = some ob →
    ∃ ob1, load m1 x = some ob1 ∧ ob.authority.rank ≤ ob1.authority.rank

/-- No instance is new, and those that remain have an authority at least as high. -/
def Shrunk {V : Type} (m m1 : List (Option (any_object V))) : Prop :=
  ∀ x ob1, load m1 x = some ob1 →
    ∃ ob, load m x = some ob ∧ ob.authority.rank ≤ ob1.authority.rank

/-- Whether letting go of the proxy of `this` destroys the instance at address `x`:
`this` is the proxy's last owner and the instance is not on deposit. -/
def any.releases {V : Type} (s : State V) (this x : Nat) : Bool :=
  match load s.handles this with
  | some (some p) =>
    match s.target p with
    | some (pr, o, ob) => decide (o = x) && decide (size_dec pr.refcount = 0)
        && decide (ob.status ≠ .deposit)
    | none => false
  | _ => false

/-- No instance is `reachable` after unless the instance at the same address was `reachable`
before: the step sets no `reachable` status. -/
def NoNewReach {V : Type} (m m1 : List (Option (any_object V))) : Prop :=
  ∀ x ob1, load m1 x = some ob1 → ob1.status = .reachable →
    ∃ ob, load m x = some ob ∧ ob.status = .reachable

/-- An instance that is `reachable` before and still there after is `reachable` after. -/
def ReachKept {V : Type} (m m1 : List (Option (any_object V))) : Prop :=
  ∀ x ob ob1, load m x = some ob → load m1 x = some ob1 → ob.status = .reachable →
    ob1.status = .reachable

/-- The instance `this->mDat->data` of a variable, when it owns a live proxy. -/
def any.instance {V : Type} (s : State V) (this : Nat) : Option Nat :=
  match load s.handles this with
  | some (some p) =>
    match load s.proxies p with
    | some pr => pr.data
    | none => none
  | _ => none

/-- Every instance is kept, and stays `reachable` when it was. -/
def KeptR {V : Type} (m m1 : List (Option (any_object V))) : Prop :=
  ∀ x ob, load m x = some ob →
    ∃ ob1, load m1 x = some ob1 ∧ (ob.status = .reachable → ob1.status = .reachable)

/-- No instance is new, and those that remain stay `reachable` when they were. -/
def ShrunkR {V : Type} (m m1 : List (Option (any_object V))) : Prop :=
  ∀ x ob1, load m1 x = some ob1 →
    ∃ ob, load m x = some ob ∧ (ob.status = .reachable → ob1.status = .reachable)

/-- Every instance is still there afterwards: the step destroys nothing. -/
def Alive {V : Type} (m m1 : List (Option (any_object V))) : Prop :=
  ∀ x ob, load m x = some ob → ∃ ob1, load m1 x = some ob1

/-- Whatever instance is gone after the step was destroyed by the release of the proxy of
`this`, as its last owner and not on deposit. -/
def OnlyReleased {V : Type} (s : State V) (this : Nat) (m1 : List (Option (any_object V))) :
    Prop :=
  ∀ x ob, load s.objects x = some ob → load m1 x = none → any.releases s this x = true

/-- Integer payloads compared by value and hashed by magnitude; every type has extensions. -/
def sample_traits : Traits Int where
  compare := fun _ x y => decide (x = y)
  hash := fun _ x => x.natAbs
  hash_null := 0
  get_ext := fun T => .ok T

/-- The store after `a = make_protect<int>(3); any n; b = make<int>(4)`: the variables are
`a = 0`, `n = 1` (empty) and `b = 2`. -/
def sample_store : State Int :=
  (any.make (any.ctor_default (any.make_protect ({} : State Int) 0 3).2).2 0 4).2

/-- The store after `a = make<int>(1)` once an external tracer has marked the instance
`reachable`. -/
def reachable_store : State Int :=
  { objects := [some { status := .reachable, type := 0, mDat := 1 }]
    proxies := [some { refcount := 1, data := some 0 }]
    handles := [some (some 0)] }

/-- The store after `x = make<int>(9); a = make<int>(1); b = make<int>(2);`, the destruction
of `x` and `a.share_object()`: the variables are `a = 1` and `b = 2`, the instance of `a` is
on deposit at address 1, and the block at address 0 is free again. -/
def deposit_store : State Int :=
  (any.share_object (any.dtor (any.make (any.make (any.make ({} : State Int)
    0 9).2 0 1).2 0 2).2 0).2 1).2

theorem load_nil {α : Type} (b : Nat) : load ([] : List (Option α)) b = none := by
  cases b <;> rfl

theorem load_put {α : Type} (m : List (Option α)) (a : Nat) (v : Option α) (b : Nat) :
    load (put m a v) b = if b = a then v else load m b := by
  induction m generalizing a b with
  | nil =>
    induction a generalizing b with
    | zero => cases b <;> simp [put, load, load_nil]
    | succ n ih =>
      cases b with
      | zero => simp [put, load]
      | succ k => simp [put, load, ih k, load_nil]
  | cons x r ih =>
    cases a with
    | zero => cases b <;> simp [put, load]
    | succ n =>
      cases b with
      | zero => simp [put, load]
      | succ k => simp [put, load, ih n k]

theorem load_put_same {α : Type} (m : List (Option α)) (a : Nat) (v : Option α) :
    load (put m a v) a = v := by
  simp [load_put]

theorem load_fresh {α : Type} (m : List (Option α)) : load m (fresh m) = none := by
  induction m with
  | nil => rfl
  | cons x r ih =>
    cases x with
    | none => rfl
    | some v => simpa [fresh, load] using ih

theorem ne_fresh_of_load {α : Type} (m : List (Option α)) (a : Nat) (v : α)
    (h : load m a = some v) : a ≠ fresh m := by
  intro e
  rw [e, load_fresh] at h
  cases h

theorem size_dec_pos (n : Nat) (h2 : 2 ≤ n) (hn : n < size_max) :
    size_dec n = n - 1 ∧ size_dec n ≠ 0 := by
  unfold size_dec size_max at *
  omega

theorem target_some {V : Type} (s : State V) (p o : Nat) (pr : proxy) (ob : any_object V)
    (h : s.target p = some (pr, o, ob)) :
    load s.proxies p = some pr ∧ pr.data = some o ∧ load s.objects o = some ob := by
  unfold State.target at h
  split at h
  · cases h
  · rename_i pr1 hp
    split at h
    · cases h
    · rename_i o1 hd
      split at h
      · cases h
      · rename_i ob1 ho
        simp only [Option.some.injEq, Prod.mk.injEq] at h
        obtain ⟨rfl, rfl, rfl⟩ := h
        exact ⟨hp, hd, ho⟩

/-! ## No exception escapes the release and clone paths -/

theorem kill_raised {V : Type} (s : State V) (o : Nat) :
    (any_object.kill s o).1.raised = false := by
  unfold any_object.kill
  split <;> rfl


theorem ne_throw_of_raised {α V : Type} (r : Outcome α × State V) (h : r.1.raised = false)
    (e : Exception) (s2 : State V) : r ≠ (.throw e, s2) := by
  intro he
  rw [he] at h
  cases h

theorem free_raised {V : Type} (s : State V) (p : Nat) :
    (proxy.free s p).1.raised = false := by
  unfold proxy.free
  cases hp : load s.proxies p with
  | none => rfl
  | some pr =>
    cases hd : pr.data with
    | none => simp [hd, Outcome.raised]
    | some o =>
      cases ho : load s.objects o with
      | none => simp [hd, ho, Outcome.raised]
      | some ob =>
        by_cases hs : ob.status = .deposit
        · simp [hd, ho, hs, Outcome.raised]
        · simp [hd, ho, hs, any_object.kill, Outcome.raised]

theorem recycle_raised {V : Type} (s : State V) (this : Nat) :
    (any.recycle s this).1.raised = false := by
  unfold any.recycle
  rcases hh : load s.handles this with _ | _ | p
  · simp [Outcome.raised]
  · simp [Outcome.raised]
  · rcases hp : load s.proxies p with _ | pr
    · simp [hp, Outcome.raised]
    · simp only [hp]
      split
      · split
        · rfl
        · rename_i heq
          exact absurd heq (ne_throw_of_raised _ (free_raised _ _) _ _)
        · rfl
      · rfl

theorem clone_raised {V : Type} (s : State V) (this : Nat) :
    (any.clone s this).1.raised = false := by
  unfold any.clone
  rcases hh : load s.handles this with _ | _ | p
  · simp [Outcome.raised]
  · simp [Outcome.raised]
  · rcases ht : s.target p with _ | t
    · simp [ht, Outcome.raised]
    · simp only [ht]
      split
      · rfl
      · rename_i heq
        exact absurd heq (ne_throw_of_raised _ (recycle_raised _ _) _ _)
      · rfl

/-! ## A throwing call leaves the store as it was -/

theorem val_throw {V : Type} (s s1 : State V) (this T : Nat) (raw : Bool) (e : Exception)
    (h : any.val s this T raw = (.throw e, s1)) : s1 = s := by
  unfold any.val at h
  repeat' split at h
  all_goals first
    | exact (Prod.mk.inj h).2.symm
    | (rename_i heq; exact absurd heq (ne_throw_of_raised _ (clone_raised _ _) _ _))
    | (have h1 := (Prod.mk.inj h).1; simp at h1)

theorem protect_throw {V : Type} (s s1 : State V) (this : Nat) (e : Exception)
    (h : any.protect s this = (.throw e, s1)) : s1 = s := by
  unfold any.protect at h
  repeat' split at h
  all_goals first
    | exact (Prod.mk.inj h).2.symm
    | (have h1 := (Prod.mk.inj h).1; simp at h1)

theorem share_object_throw {V : Type} (s s1 : State V) (this : Nat) (e : Exception)
    (h : any.share_object s this = (.throw e, s1)) : s1 = s := by
  unfold any.share_object at h
  repeat' split at h
  all_goals first
    | exact (Prod.mk.inj h).2.symm
    | (have h1 := (Prod.mk.inj h).1; simp at h1)

theorem get_ext_throw {V : Type} (tr : Traits V) (s s1 : State V) (this : Nat) (e : Exception)
    (h : any.get_ext tr s this = (.throw e, s1)) : s1 = s := by
  unfold any.get_ext at h
  repeat' split at h
  all_goals exact (Prod.mk.inj h).2.symm

theorem swap_throw {V : Type} (s s1 : State V) (this obj : Nat) (raw : Bool) (e : Exception)
    (h : any.swap s this obj raw = (.throw e, s1)) : s1 = s := by
  unfold any.swap at h
  repeat' split at h
  all_goals first
    | exact (Prod.mk.inj h).2.symm
    | (have h1 := (Prod.mk.inj h).1; simp at h1)


theorem assign_throw {V : Type} (s s1 : State V) (this obj : Nat) (raw : Bool) (e : Exception)
    (h : any.assign s this obj raw = (.throw e, s1)) : s1 = s := by
  unfold any.assign at h
  repeat' split at h
  all_goals first
    | exact (Prod.mk.inj h).2.symm
    | (rename_i heq; exact absurd heq (ne_throw_of_raised _ (recycle_raised _ _) _ _))
    | (rename_i heq; exact absurd heq (ne_throw_of_raised _ (kill_raised _ _) _ _))
    | (have h1 := (Prod.mk.inj h).1; simp at h1)

theorem assign_value_throw {V : Type} (s s1 : State V) (this T : Nat) (v : V) (raw : Bool)
    (e : Exception) (h : any.assign_value s this T v raw = (.throw e, s1)) : s1 = s := by
  unfold any.assign_value at h
  repeat' split at h
  all_goals first
    | exact (Prod.mk.inj h).2.symm
    | (rename_i heq; exact absurd heq (ne_throw_of_raised _ (recycle_raised _ _) _ _))
    | (rename_i heq; exact absurd heq (ne_throw_of_raised _ (kill_raised _ _) _ _))
    | (have h1 := (Prod.mk.inj h).1; simp at h1)

/-! ## Authority under each operation -/

section mono
variable {V : Type}

theorem shrunk_refl (m : List (Option (any_object V))) : Shrunk m m :=
  fun _ ob1 h => ⟨ob1, h, Nat.le_refl _⟩

theorem kept_refl (m : List (Option (any_object V))) : Kept m m :=
  fun _ ob h => ⟨ob, h, Nat.le_refl _⟩

theorem authMono_of_shrunk {m m1 : List (Option (any_object V))} (h : Shrunk m m1) :
    AuthMono m m1 := by
  intro x ob ob1 hx hx1
  obtain ⟨ob0, h0, hle⟩ := h x ob1 hx1
  rw [hx] at h0
  cases h0
  exact hle

theorem authMono_of_kept {m m1 : List (Option (any_object V))} (h : Kept m m1) :
    AuthMono m m1 := by
  intro x ob ob1 hx hx1
  obtain ⟨ob0, h0, hle⟩ := h x ob hx
  rw [hx1] at h0
  cases h0
  exact hle

theorem authMono_kept_shrunk {m m1 m2 : List (Option (any_object V))} (h1 : Kept m m1)
    (h2 : Shrunk m1 m2) : AuthMono m m2 := by
  intro x ob ob2 hx hx2
  obtain ⟨ob1, hx1, hle1⟩ := h1 x ob hx
  obtain ⟨ob1b, hx1b, hle2⟩ := h2 x ob2 hx2
  rw [hx1] at hx1b
  cases hx1b
  exact Nat.le_trans hle1 hle2

theorem shrunk_put_none (m : List (Option (any_object V))) (o : Nat) :
    Shrunk m (put m o none) := by
  intro x ob1 hx
  rw [load_put] at hx
  split at hx
  · cases hx
  · exact ⟨ob1, hx, Nat.le_refl _⟩

theorem shrunk_put_some (m : List (Option (any_object V))) (o : Nat) (ob ob2 : any_object V)
    (ho : load m o = some ob) (hle : ob.authority.rank ≤ ob2.authority.rank) :
    Shrunk m (put m o (some ob2)) := by
  intro x ob1 hx
  rw [load_put] at hx
  split at hx
  · rename_i hxo
    cases hx
    exact ⟨ob, hxo ▸ ho, hle⟩
  · exact ⟨ob1, hx, Nat.le_refl _⟩

theorem kept_put_some (m : List (Option (any_object V))) (o : Nat) (ob ob2 : any_object V)
    (ho : load m o = some ob) (hle : ob.authority.rank ≤ ob2.authority.rank) :
    Kept m (put m o (some ob2)) := by
  intro x ob1 hx
  rw [load_put]
  split
  · rename_i hxo
    subst hxo
    rw [ho] at hx
    cases hx
    exact ⟨ob2, rfl, hle⟩
  · exact ⟨ob1, hx, Nat.le_refl _⟩

theorem kept_put_fresh (m : List (Option (any_object V))) (ob2 : any_object V) :
    Kept m (put m (fresh m) (some ob2)) := by
  intro x ob1 hx
  rw [load_put]
  split
  · rename_i hxo
    subst hxo
    rw [load_fresh] at hx
    cases hx
  · exact ⟨ob1, hx, Nat.le_refl _⟩

theorem free_shrunk (s : State V) (p : Nat) : Shrunk s.objects (proxy.free s p).2.objects := by
  unfold proxy.free
  rcases hp : load s.proxies p with _ | pr
  · exact shrunk_refl _
  · rcases hd : pr.data with _ | o
    · simp only [hd]
      exact shrunk_refl _
    · rcases ho : load s.objects o with _ | ob
      · simp only [hd, ho]
        exact shrunk_refl _
      · by_cases hs : ob.status = .deposit
        · simp only [hd, ho, hs, if_true]
          exact shrunk_put_some _ _ ob _ ho (Nat.le_refl _)
        · simp only [hd, ho, hs, if_false, any_object.kill]
          exact shrunk_put_none _ _

theorem free_shrunk_eq (s s2 : State V) (p : Nat) (r : Outcome Unit)
    (h : proxy.free s p = (r, s2)) : Shrunk s.objects s2.objects := by
  have hf := free_shrunk s p
  rw [h] at hf
  exact hf

theorem recycle_shrunk (s : State V) (this : Nat) :
    Shrunk s.objects (any.recycle s this).2.objects := by
  unfold any.recycle
  rcases hh : load s.handles this with _ | _ | p
  · exact shrunk_refl _
  · exact shrunk_refl _
  · rcases hp : load s.proxies p with _ | pr
    · simp only [hp]
      exact shrunk_refl _
    · simp only [hp]
      split
      · split <;> rename_i heq <;> have hf := free_shrunk_eq _ _ _ _ heq <;> exact hf
      · exact shrunk_refl _

theorem recycle_shrunk_eq (s s2 : State V) (this : Nat) (r : Outcome Unit)
    (h : any.recycle s this = (r, s2)) : Shrunk s.objects s2.objects := by
  have hf := recycle_shrunk s this
  rw [h] at hf
  exact hf

theorem clone_authMono (s : State V) (this : Nat) :
    AuthMono s.objects (any.clone s this).2.objects := by
  unfold any.clone
  rcases hh : load s.handles this with _ | _ | p
  · exact authMono_of_kept (kept_refl _)
  · exact authMono_of_kept (kept_refl _)
  · rcases ht : s.target p with _ | ⟨pr, o, ob⟩
    · simp only [ht]
      exact authMono_of_kept (kept_refl _)
    · simp only [ht, any_object.duplicate, proxy.alloc]
      split <;> rename_i heq <;> have hf := recycle_shrunk_eq _ _ _ _ heq <;>
        exact authMono_kept_shrunk (kept_put_fresh _ _) hf

theorem dtor_shrunk (s : State V) (this : Nat) :
    Shrunk s.objects (any.dtor s this).2.objects := by
  unfold any.dtor
  split <;> rename_i heq <;> have hf := recycle_shrunk_eq _ _ _ _ heq <;> exact hf

theorem authMono_refl (m : List (Option (any_object V))) : AuthMono m m :=
  authMono_of_kept (kept_refl m)

theorem rank_le_two (a : object_authority) : a.rank ≤ 2 := by
  cases a <;> simp [object_authority.rank]

theorem clone_authMono_eq (s s2 : State V) (this : Nat) (r : Outcome Unit)
    (h : any.clone s this = (r, s2)) : AuthMono s.objects s2.objects := by
  have hf := clone_authMono s this
  rw [h] at hf
  exact hf

theorem protect_authMono (s : State V) (this : Nat) :
    AuthMono s.objects (any.protect s this).2.objects := by
  unfold any.protect
  rcases hh : load s.handles this with _ | _ | p
  · exact authMono_refl _
  · exact authMono_refl _
  · rcases ht : s.target p with _ | ⟨pr, o, ob⟩
    · simp only [ht]
      exact authMono_refl _
    · simp only [ht]
      split
      · exact authMono_refl _
      · exact authMono_of_kept (kept_put_some _ _ ob _ (target_some s p o pr ob ht).2.2
          (by rename_i hn; simp at hn; simp [hn, object_authority.rank]))

theorem constant_authMono (s : State V) (this : Nat) :
    AuthMono s.objects (any.constant s this).2.objects := by
  unfold any.constant
  rcases hh : load s.handles this with _ | _ | p
  · exact authMono_refl _
  · exact authMono_refl _
  · rcases ht : s.target p with _ | ⟨pr, o, ob⟩
    · simp only [ht]
      exact authMono_refl _
    · simp only [ht]
      exact authMono_of_kept (kept_put_some _ _ ob _ (target_some s p o pr ob ht).2.2
        (rank_le_two _))

theorem mark_as_rvalue_authMono (s : State V) (this : Nat) (value : Bool) :
    AuthMono s.objects (any.mark_as_rvalue s this value).2.objects := by
  unfold any.mark_as_rvalue
  rcases hh : load s.handles this with _ | _ | p
  · exact authMono_refl _
  · exact authMono_refl _
  · rcases ht : s.target p with _ | ⟨pr, o, ob⟩
    · simp only [ht]
      exact authMono_refl _
    · simp only [ht]
      split
      · exact authMono_of_kept (kept_put_some _ _ ob _ (target_some s p o pr ob ht).2.2
          (Nat.le_refl _))
      · exact authMono_refl _

theorem share_object_authMono (s : State V) (this : Nat) :
    AuthMono s.objects (any.share_object s this).2.objects := by
  unfold any.share_object
  rcases hh : load s.handles this with _ | _ | p
  · exact authMono_refl _
  · exact authMono_refl _
  · rcases ht : s.target p with _ | ⟨pr, o, ob⟩
    · simp only [ht]
      exact authMono_refl _
    · simp only [ht]
      exact authMono_of_kept (kept_put_some _ _ ob _ (target_some s p o pr ob ht).2.2
        (Nat.le_refl _))

theorem swap_objects (s : State V) (this obj : Nat) (raw : Bool) :
    (any.swap s this obj raw).2.objects = s.objects := by
  unfold any.swap
  repeat' split
  all_goals rfl

theorem duplicate_objects (s : State V) (this : Nat) :
    (any.duplicate s this).2.objects = s.objects := by
  unfold any.duplicate
  repeat' split
  all_goals rfl

theorem duplicate_objects_eq (s s2 : State V) (this : Nat) (r : Outcome (Option Nat))
    (h : any.duplicate s this = (r, s2)) : s2.objects = s.objects := by
  have hf := duplicate_objects s this
  rw [h] at hf
  exact hf

theorem ctor_copy_objects (s : State V) (v : Nat) :
    (any.ctor_copy s v).2.objects = s.objects := by
  unfold any.ctor_copy
  split <;> rename_i heq <;> have hf := duplicate_objects_eq _ _ _ _ heq <;> exact hf

theorem operator_assign_shrunk (s : State V) (this var : Nat) :
    Shrunk s.objects (any.operator_assign s this var).2.objects := by
  unfold any.operator_assign
  split
  · split
    · rename_i heq
      have hf := recycle_shrunk_eq _ _ _ _ heq
      split <;> rename_i heq2 <;> have hg := duplicate_objects_eq _ _ _ _ heq2 <;>
        simp only [hg] <;> exact hf
    · rename_i heq
      exact recycle_shrunk_eq _ _ _ _ heq
    · rename_i heq
      exact recycle_shrunk_eq _ _ _ _ heq
  · split <;> exact shrunk_refl _

theorem val_authMono (s : State V) (this T : Nat) (raw : Bool) :
    AuthMono s.objects (any.val s this T raw).2.objects := by
  unfold any.val
  repeat' split
  all_goals first
    | exact authMono_refl _
    | exact clone_authMono_eq s _ this _ (by assumption)

theorem try_move_authority (s : State V) (this x : Nat) (ob ob1 : any_object V)
    (h : load s.objects x = some ob) (h1 : load (any.try_move s this).2.objects x = some ob1) :
    ob1.authority = ob.authority ∨ ob1.authority = .normal := by
  unfold any.try_move at h1
  repeat' split at h1
  all_goals first
    | (rw [h] at h1; cases h1; exact Or.inl rfl)
    | (simp only [load_put] at h1
       split at h1
       · cases h1
         exact Or.inr rfl
       · rw [h] at h1
         cases h1
         exact Or.inl rfl)

theorem free_released (s : State V) (p x : Nat) (ob : any_object V)
    (h : load s.objects x = some ob) (h1 : load (proxy.free s p).2.objects x = none) :
    ∃ pr, load s.proxies p = some pr ∧ pr.data = some x ∧ ob.status ≠ .deposit := by
  unfold proxy.free at h1
  rcases hp : load s.proxies p with _ | pr
  · simp [hp, h] at h1
  · rcases hd : pr.data with _ | o
    · simp [hp, hd, h] at h1
    · rcases ho : load s.objects o with _ | ob0
      · simp [hp, hd, ho, h] at h1
      · by_cases hs : ob0.status = .deposit
        · simp only [hp, hd, ho, hs, if_true, load_put] at h1
          split at h1
          · cases h1
          · rw [h] at h1
            cases h1
        · simp only [hp, hd, ho, hs, if_false, any_object.kill, load_put] at h1
          split at h1
          · rename_i hxo
            subst hxo
            rw [h] at ho
            cases ho
            exact ⟨pr, rfl, hd, hs⟩
          · rw [h] at h1
            cases h1

theorem free_released_eq (s s2 : State V) (p x : Nat) (r : Outcome Unit) (ob : any_object V)
    (he : proxy.free s p = (r, s2))
    (h : load s.objects x = some ob) (h1 : load s2.objects x = none) :
    ∃ pr, load s.proxies p = some pr ∧ pr.data = some x ∧ ob.status ≠ .deposit := by
  apply free_released s p x ob h
  rw [he]
  exact h1

theorem recycle_released (s : State V) (this x : Nat) (ob : any_object V)
    (h : load s.objects x = some ob) (h1 : load (any.recycle s this).2.objects x = none) :
    any.releases s this x = true := by
  unfold any.recycle at h1
  rcases hh : load s.handles this with _ | _ | p
  · simp [hh, h] at h1
  · simp [hh, h] at h1
  · rcases hp : load s.proxies p with _ | pr
    · simp [hh, hp, h] at h1
    · simp only [hh, hp] at h1
      by_cases hz : size_dec pr.refcount = 0
      · simp only [hz, if_true] at h1
        have key : ∃ pr1, load (put s.proxies p
            (some ({ refcount := 0, data := pr.data } : proxy))) p = some pr1 ∧
            pr1.data = some x ∧ ob.status ≠ .deposit := by
          split at h1 <;> rename_i heq <;> exact free_released_eq _ _ _ _ _ _ heq h h1
        obtain ⟨pr1, hp1, hd1, hs1⟩ := key
        rw [load_put_same] at hp1
        cases hp1
        have hd : pr.data = some x := hd1
        simp [any.releases, hh, State.target, hp, hd, h, hz, hs1]
      · simp [hz, h] at h1

theorem recycle_released_eq (s s2 : State V) (this x : Nat) (r : Outcome Unit)
    (ob : any_object V) (he : any.recycle s this = (r, s2))
    (h : load s.objects x = some ob) (h1 : load s2.objects x = none) :
    any.releases s this x = true := by
  apply recycle_released s this x ob h
  rw [he]
  exact h1

theorem kill_of_load (s : State V) (o : Nat) (ob : any_object V)
    (h : load s.objects o = some ob) :
    any_object.kill s o = (.ok (), { s with objects := put s.objects o none }) := by
  simp [any_object.kill, h]

theorem alloc_after_kill (m : List (Option (any_object V))) (o : Nat) (ob0 nb : any_object V)
    (ho : load m o = some ob0) (h0 : ob0.authority = .normal) :
    AuthMono m (put (put m o none) (fresh (put m o none)) (some nb)) := by
  intro x ob ob1 hx hx1
  rw [load_put] at hx1
  split at hx1
  · rename_i hxf
    have hnone : load (put m o none) x = none := by
      rw [hxf]
      exact load_fresh _
    rw [load_put] at hnone
    split at hnone
    · rename_i hxo
      subst hxo
      rw [ho] at hx
      cases hx
      simp [h0, object_authority.rank]
    · rw [hx] at hnone
      cases hnone
  · rw [load_put] at hx1
    split at hx1
    · cases hx1
    · rw [hx] at hx1
      cases hx1
      exact Nat.le_refl _

theorem alloc_after_recycle (s s1 : State V) (this x : Nat) (r : Outcome Unit)
    (ob ob1 nb : any_object V) (he : any.recycle s this = (r, s1))
    (h : load s.objects x = some ob)
    (h1 : load (put s1.objects (fresh s1.objects) (some nb)) x = some ob1) :
    ob.authority.rank ≤ ob1.authority.rank ∨ any.releases s this x = true := by
  rw [load_put] at h1
  split at h1
  · rename_i hxf
    right
    apply recycle_released_eq s s1 this x r ob he h
    rw [hxf]
    exact load_fresh _
  · left
    exact authMono_of_shrunk (recycle_shrunk_eq s s1 this r he) x ob ob1 h h1

theorem kill_shrunk_eq (s s1 : State V) (o : Nat) (r : Outcome Unit)
    (he : any_object.kill s o = (r, s1)) : Shrunk s.objects s1.objects := by
  unfold any_object.kill at he
  split at he
  · cases he
    exact shrunk_refl _
  · cases he
    exact shrunk_put_none _ _

theorem kill_then_duplicate (s s1 s2 : State V) (p o1 o3 x : Nat) (pr : proxy)
    (r : Outcome Unit) (ob0 nb ob ob1 : any_object V)
    (hk : any_object.kill s o1 = (r, s1)) (hd : any_object.duplicate s1 nb = (o3, s2))
    (ht : s.target p = some (pr, o1, ob0)) (h0 : ¬ob0.authority ≠ .normal)
    (h : load s.objects x = some ob) (h1 : load s2.objects x = some ob1) :
    ob.authority.rank ≤ ob1.authority.rank := by
  have ho := (target_some s p o1 pr ob0 ht).2.2
  rw [kill_of_load s o1 ob0 ho] at hk
  cases hk
  simp only [any_object.duplicate, Prod.mk.injEq] at hd
  obtain ⟨_, rfl⟩ := hd
  exact alloc_after_kill s.objects o1 ob0 _ ho (by simpa using h0) x ob ob1 h h1

theorem kill_then_alloc (s s1 s2 : State V) (p o1 o3 x T : Nat) (dat : V) (pr : proxy)
    (r : Outcome Unit) (ob0 ob ob1 : any_object V)
    (hk : any_object.kill s o1 = (r, s1)) (hd : any_object.alloc s1 T dat = (o3, s2))
    (ht : s.target p = some (pr, o1, ob0)) (h0 : ¬ob0.authority ≠ .normal)
    (h : load s.objects x = some ob) (h1 : load s2.objects x = some ob1) :
    ob.authority.rank ≤ ob1.authority.rank := by
  have ho := (target_some s p o1 pr ob0 ht).2.2
  rw [kill_of_load s o1 ob0 ho] at hk
  cases hk
  simp only [any_object.alloc, Prod.mk.injEq] at hd
  obtain ⟨_, rfl⟩ := hd
  exact alloc_after_kill s.objects o1 ob0 _ ho (by simpa using h0) x ob ob1 h h1

theorem recycle_then_duplicate (s s1 s2 s3 : State V) (this o3 p3 x : Nat)
    (r : Outcome Unit) (d : Option Nat) (nb ob ob1 : any_object V)
    (he : any.recycle s this = (r, s1)) (hd : any_object.duplicate s1 nb = (o3, s2))
    (hp : proxy.alloc s2 1 d = (p3, s3))
    (h : load s.objects x = some ob) (h1 : load s3.objects x = some ob1) :
    ob.authority.rank ≤ ob1.authority.rank ∨ any.releases s this x = true := by
  simp only [any_object.duplicate, Prod.mk.injEq] at hd
  obtain ⟨_, rfl⟩ := hd
  simp only [proxy.alloc, Prod.mk.injEq] at hp
  obtain ⟨_, rfl⟩ := hp
  exact alloc_after_recycle s s1 this x r ob ob1 _ he h h1

theorem recycle_then_alloc (s s1 s2 s3 : State V) (this o3 p3 x T : Nat) (dat : V)
    (r : Outcome Unit) (d : Option Nat) (ob ob1 : any_object V)
    (he : any.recycle s this = (r, s1)) (hd : any_object.alloc s1 T dat = (o3, s2))
    (hp : proxy.alloc s2 1 d = (p3, s3))
    (h : load s.objects x = some ob) (h1 : load s3.objects x = some ob1) :
    ob.authority.rank ≤ ob1.authority.rank ∨ any.releases s this x = true := by
  simp only [any_object.alloc, Prod.mk.injEq] at hd
  obtain ⟨_, rfl⟩ := hd
  simp only [proxy.alloc, Prod.mk.injEq] at hp
  obtain ⟨_, rfl⟩ := hp
  exact alloc_after_recycle s s1 this x r ob ob1 _ he h h1

theorem assign_authority (s : State V) (this obj x : Nat) (raw : Bool) (ob ob1 : any_object V)
    (h : load s.objects x = some ob)
    (h1 : load (any.assign s this obj raw).2.objects x = some ob1) :
    ob.authority.rank ≤ ob1.authority.rank ∨ any.releases s this x = true := by
  unfold any.assign at h1
  repeat' split at h1
  all_goals try dsimp only at h1
  all_goals first
    | (rw [h] at h1; cases h1; exact Or.inl (Nat.le_refl _))
    | exact Or.inl (authMono_of_shrunk
        (recycle_shrunk_eq s _ this _ (by assumption)) x ob ob1 h h1)
    | exact Or.inl (authMono_of_shrunk
        (kill_shrunk_eq s _ _ _ (by assumption)) x ob ob1 h h1)
    | exact recycle_then_duplicate s _ _ _ this _ _ x _ _ _ ob ob1
        (by assumption) (by assumption) (by assumption) h h1
    | exact Or.inl (kill_then_duplicate s _ _ _ _ _ x _ _ _ _ ob ob1
        (by assumption) (by assumption) (by assumption) (by assumption) h h1)

theorem assign_value_authority (s : State V) (this T x : Nat) (dat : V) (raw : Bool)
    (ob ob1 : any_object V) (h : load s.objects x = some ob)
    (h1 : load (any.assign_value s this T dat raw).2.objects x = some ob1) :
    ob.authority.rank ≤ ob1.authority.rank ∨ any.releases s this x = true := by
  unfold any.assign_value at h1
  repeat' split at h1
  all_goals try dsimp only at h1
  all_goals first
    | (rw [h] at h1; cases h1; exact Or.inl (Nat.le_refl _))
    | exact Or.inl (authMono_of_shrunk
        (recycle_shrunk_eq s _ this _ (by assumption)) x ob ob1 h h1)
    | exact Or.inl (authMono_of_shrunk
        (kill_shrunk_eq s _ _ _ (by assumption)) x ob ob1 h h1)
    | exact recycle_then_alloc s _ _ _ this _ _ x _ _ _ _ ob ob1
        (by assumption) (by assumption) (by assumption) h h1
    | exact Or.inl (kill_then_alloc s _ _ _ _ _ x _ _ _ _ _ ob ob1
        (by assumption) (by assumption) (by assumption) (by assumption) h h1)

end mono

/-! ## Release, sharing and copy equations -/

section ops
variable {V : Type}

theorem recycle_last (s : State V) (b q o2 : Nat) (qr : proxy) (ob2 : any_object V)
    (hb : load s.handles b = some (some q)) (ht : s.target q = some (qr, o2, ob2))
    (hz : size_dec qr.refcount = 0) :
    any.recycle s b = (.ok (),
      { objects := put s.objects o2
          (if ob2.status = .deposit then some { ob2 with status := .normal } else none)
        proxies := put (put s.proxies q (some { qr with refcount := 0 })) q none
        handles := put s.handles b (some none) }) := by
  obtain ⟨hq, hd, ho⟩ := target_some s q o2 qr ob2 ht
  by_cases hs : ob2.status = .deposit
  · simp [any.recycle, hb, hq, hz, proxy.free, load_put, hd, ho, hs]
  · simp [any.recycle, hb, hq, hz, proxy.free, load_put, hd, ho, hs, any_object.kill]

theorem duplicate_none (s : State V) (a : Nat) (ha : load s.handles a = some none) :
    any.duplicate s a = (.ok none, s) := by
  simp [any.duplicate, ha]

theorem duplicate_some (s : State V) (a p : Nat) (pr : proxy)
    (ha : load s.handles a = some (some p)) (hp : load s.proxies p = some pr) :
    any.duplicate s a = (.ok (some p), { s with
      proxies := put s.proxies p (some { pr with refcount := size_inc pr.refcount }) }) := by
  simp [any.duplicate, ha, hp]

theorem assign_raw_locked (s : State V) (a o p q o1 o2 : Nat) (pr qr : proxy)
    (ob1 ob2 : any_object V)
    (ha : load s.handles a = some (some p)) (ho : load s.handles o = some (some q))
    (hqp : q ≠ p) (hp : s.target p = some (pr, o1, ob1)) (hq : s.target q = some (qr, o2, ob2))
    (h : ob1.authority ≠ .normal ∨ ob2.authority ≠ .normal) :
    any.assign s a o true = (.throw (.error "E000J"), s) := by
  have hoa : o ≠ a := by
    intro e
    rw [e, ha] at ho
    exact hqp (by injection ho with h1; injection h1 with h2; exact h2.symm)
  by_cases h1 : ob1.authority = .normal
  · have h2 : ob2.authority ≠ .normal := by
      rcases h with h | h
      · exact absurd h1 h
      · exact h
    simp [any.assign, ha, ho, hoa, hqp, hp, hq, h1, h2]
  · simp [any.assign, ha, ho, hoa, hqp, hp, h1]

end ops

/-! ## More store lemmas -/

theorem put_put {α : Type} (m : List (Option α)) (a : Nat) (v w : Option α) :
    put (put m a v) a w = put m a w := by
  induction m generalizing a with
  | nil =>
    induction a with
    | zero => rfl
    | succ n ih => simp [put, ih]
  | cons x r ih =>
    cases a with
    | zero => rfl
    | succ n => simp [put, ih n]

/-! ## Clone equations -/

theorem clone_shared {V : Type} (s : State V) (a p o : Nat) (pr : proxy) (ob : any_object V)
    (ha : load s.handles a = some (some p)) (ht : s.target p = some (pr, o, ob))
    (hz : size_dec pr.refcount ≠ 0) :
    any.clone s a = (.ok (),
      { objects := put s.objects (fresh s.objects) (some { type := ob.type, mDat := ob.mDat })
        proxies := put (put s.proxies (fresh s.proxies)
            (some { refcount := 1, data := some (fresh s.objects) })) p
          (some { refcount := size_dec pr.refcount, data := some o })
        handles := put s.handles a (some (some (fresh s.proxies))) }) := by
  obtain ⟨hp, hd, ho⟩ := target_some s p o pr ob ht
  have hpf : p ≠ fresh s.proxies := ne_fresh_of_load _ _ _ hp
  simp [any.clone, ha, ht, any_object.duplicate, proxy.alloc, any.recycle, load_put, hpf, hp, hz, hd]

theorem clone_last {V : Type} (s : State V) (a p o : Nat) (pr : proxy) (ob : any_object V)
    (ha : load s.handles a = some (some p)) (ht : s.target p = some (pr, o, ob))
    (hz : size_dec pr.refcount = 0) :
    any.clone s a = (.ok (),
      { objects := put (put s.objects (fresh s.objects)
            (some { type := ob.type, mDat := ob.mDat })) o
          (if ob.status = .deposit then some { ob with status := .normal } else none)
        proxies := put (put s.proxies (fresh s.proxies)
            (some { refcount := 1, data := some (fresh s.objects) })) p none
        handles := put s.handles a (some (some (fresh s.proxies))) }) := by
  obtain ⟨hp, hd, ho⟩ := target_some s p o pr ob ht
  have hpf : p ≠ fresh s.proxies := ne_fresh_of_load _ _ _ hp
  have hof : o ≠ fresh s.objects := ne_fresh_of_load _ _ _ ho
  by_cases hs : ob.status = .deposit
  · simp [any.clone, ha, ht, any_object.duplicate, proxy.alloc, any.recycle, load_put, hpf, hp, hz,
      hd, proxy.free, hof, ho, hs, put_put]
  · simp [any.clone, ha, ht, any_object.duplicate, proxy.alloc, any.recycle, load_put, hpf, hp, hz,
      hd, proxy.free, hof, ho, hs, put_put, any_object.kill]

theorem size_dec_one : size_dec 1 = 0 := by
  decide

theorem size_dec_of_pos (n : Nat) (h1 : 1 ≤ n) (hn : n < size_max) : size_dec n = n - 1 := by
  unfold size_dec size_max at *
  omega

/-! ## The release made explicit -/

section rel
variable {V : Type}

end rel

theorem clone_spec {V : Type} (s : State V) (a p o : Nat) (pr : proxy) (ob : any_object V)
    (ha : load s.handles a = some (some p)) (ht : s.target p = some (pr, o, ob))
    (h1 : 1 ≤ pr.refcount) (hmax : pr.refcount < size_max) :
    (any.clone s a).1 = .ok () ∧
    load s.proxies (fresh s.proxies) = none ∧ load s.objects (fresh s.objects) = none ∧
    fresh s.proxies ≠ p ∧ fresh s.objects ≠ o ∧
    load (any.clone s a).2.handles a = some (some (fresh s.proxies)) ∧
    (any.clone s a).2.target (fresh s.proxies)
      = some ({ refcount := 1, data := some (fresh s.objects) }, fresh s.objects,
          { type := ob.type, mDat := ob.mDat }) ∧
    (1 < pr.refcount →
      load (any.clone s a).2.proxies p
        = some { refcount := pr.refcount - 1, data := some o }) ∧
    (pr.refcount = 1 → load (any.clone s a).2.proxies p = none) ∧
    (ob.authority ≠ .constant →
      any.val s a ob.type false = (.ok (fresh s.objects), (any.clone s a).2)) ∧
    (1 < pr.refcount → load (any.clone s a).2.objects o = some ob) := by
  obtain ⟨hp, hd, ho⟩ := target_some s p o pr ob ht
  have hpf : p ≠ fresh s.proxies := ne_fresh_of_load _ _ _ hp
  have hof : o ≠ fresh s.objects := ne_fresh_of_load _ _ _ ho
  by_cases hn : pr.refcount = 1
  · have hz : size_dec pr.refcount = 0 := by
      rw [hn]
      exact size_dec_one
    have he := clone_last s a p o pr ob ha ht hz
    have hval : ob.authority ≠ .constant →
        any.val s a ob.type false = (.ok (fresh s.objects), (any.clone s a).2) := by
      intro hauth
      simp only [any.val, any.type, ha, ht, he]
      simp [hauth, load_put, State.target, Ne.symm hpf, Ne.symm hof]
    rw [he] at hval ⊢
    refine ⟨rfl, load_fresh _, load_fresh _, Ne.symm hpf, Ne.symm hof, ?_, ?_, ?_, ?_, hval,
      ?_⟩
    · simp [load_put]
    · simp [State.target, load_put, Ne.symm hpf, Ne.symm hof]
    · intro hlt
      omega
    · intro _
      simp [load_put]
    · intro hlt
      omega
  · have hz : size_dec pr.refcount ≠ 0 := (size_dec_pos pr.refcount (by omega) hmax).2
    have hdec : size_dec pr.refcount = pr.refcount - 1 := size_dec_of_pos _ h1 hmax
    have he := clone_shared s a p o pr ob ha ht hz
    have hval : ob.authority ≠ .constant →
        any.val s a ob.type false = (.ok (fresh s.objects), (any.clone s a).2) := by
      intro hauth
      simp only [any.val, any.type, ha, ht, he]
      simp [hauth, load_put, State.target, Ne.symm hpf]
    rw [he] at hval ⊢
    refine ⟨rfl, load_fresh _, load_fresh _, Ne.symm hpf, Ne.symm hof, ?_, ?_, ?_, ?_, hval,
      ?_⟩
    · simp [load_put]
    · simp [State.target, load_put, Ne.symm hpf]
    · intro _
      simp [load_put, hdec]
    · intro h
      exact absurd h hn
    · intro _
      simp [load_put, hof, ho]

/-! ## No operation sets the `reachable` status -/

section reach
variable {V : Type}

theorem nnr_refl (m : List (Option (any_object V))) : NoNewReach m m :=
  fun _ ob1 h hr => ⟨ob1, h, hr⟩

theorem nnr_trans {m m1 m2 : List (Option (any_object V))} (h1 : NoNewReach m m1)
    (h2 : NoNewReach m1 m2) : NoNewReach m m2 := by
  intro x ob2 hx hr
  obtain ⟨ob1, hx1, hr1⟩ := h2 x ob2 hx hr
  exact h1 x ob1 hx1 hr1

theorem nnr_put_none (m : List (Option (any_object V))) (o : Nat) :
    NoNewReach m (put m o none) := by
  intro x ob1 hx hr
  rw [load_put] at hx
  split at hx
  · cases hx
  · exact ⟨ob1, hx, hr⟩

theorem nnr_put_some (m : List (Option (any_object V))) (o : Nat) (ob2 : any_object V)
    (h : ob2.status = .reachable → ∃ ob, load m o = some ob ∧ ob.status = .reachable) :
    NoNewReach m (put m o (some ob2)) := by
  intro x ob1 hx hr
  rw [load_put] at hx
  split at hx
  · rename_i hxo
    cases hx
    rw [hxo]
    exact h hr
  · exact ⟨ob1, hx, hr⟩

theorem kill_nnr (s : State V) (o : Nat) :
    NoNewReach s.objects (any_object.kill s o).2.objects := by
  unfold any_object.kill
  split
  · exact nnr_refl _
  · exact nnr_put_none _ _

theorem kill_nnr_eq (s s1 : State V) (o : Nat) (r : Outcome Unit)
    (h : any_object.kill s o = (r, s1)) : NoNewReach s.objects s1.objects := by
  have hf := kill_nnr s o
  rw [h] at hf
  exact hf

theorem object_alloc_nnr (s : State V) (T : Nat) (dat : V) :
    NoNewReach s.objects (any_object.alloc s T dat).2.objects :=
  nnr_put_some _ _ _ (fun h => by cases h)

theorem object_alloc_nnr_eq (s s1 : State V) (T o : Nat) (dat : V)
    (h : any_object.alloc s T dat = (o, s1)) : NoNewReach s.objects s1.objects := by
  have hf := object_alloc_nnr s T dat
  rw [h] at hf
  exact hf

theorem object_duplicate_nnr (s : State V) (ob : any_object V) :
    NoNewReach s.objects (any_object.duplicate s ob).2.objects :=
  nnr_put_some _ _ _ (fun h => by cases h)

theorem object_duplicate_nnr_eq (s s1 : State V) (o : Nat) (ob : any_object V)
    (h : any_object.duplicate s ob = (o, s1)) : NoNewReach s.objects s1.objects := by
  have hf := object_duplicate_nnr s ob
  rw [h] at hf
  exact hf

theorem proxy_alloc_objects (s : State V) (rc : Nat) (d : Option Nat) :
    (proxy.alloc s rc d).2.objects = s.objects :=
  rfl

theorem proxy_alloc_objects_eq (s s1 : State V) (rc p : Nat) (d : Option Nat)
    (h : proxy.alloc s rc d = (p, s1)) : s1.objects = s.objects := by
  have hf := proxy_alloc_objects s rc d
  rw [h] at hf
  exact hf

theorem ctor_proxy_objects_eq (s s1 : State V) (h : Nat) (d : Option Nat)
    (he : any.ctor_proxy s d = (h, s1)) : s1.objects = s.objects := by
  have hf : (any.ctor_proxy s d).2.objects = s.objects := rfl
  rw [he] at hf
  exact hf

theorem proxy_alloc_authority_nnr (s : State V) (a : object_authority) (rc : Nat)
    (d : Option Nat) : NoNewReach s.objects (proxy.alloc_authority s a rc d).2.objects := by
  unfold proxy.alloc_authority
  rcases d with _ | o
  · exact nnr_refl _
  · rcases ho : load s.objects o with _ | ob
    · simp only [ho]
      exact nnr_refl _
    · simp only [ho]
      exact nnr_put_some _ _ _ (fun h => ⟨ob, ho, h⟩)

theorem proxy_alloc_authority_nnr_eq (s s1 : State V) (a : object_authority) (rc : Nat)
    (d : Option Nat) (r : Outcome Nat) (h : proxy.alloc_authority s a rc d = (r, s1)) :
    NoNewReach s.objects s1.objects := by
  have hf := proxy_alloc_authority_nnr s a rc d
  rw [h] at hf
  exact hf

theorem free_nnr (s : State V) (p : Nat) :
    NoNewReach s.objects (proxy.free s p).2.objects := by
  unfold proxy.free
  rcases hp : load s.proxies p with _ | pr
  · exact nnr_refl _
  · rcases hd : pr.data with _ | o
    · simp only [hd]
      exact nnr_refl _
    · rcases ho : load s.objects o with _ | ob
      · simp only [hd, ho]
        exact nnr_refl _
      · by_cases hs : ob.status = .deposit
        · simp only [hd, ho, hs, if_true]
          exact nnr_put_some _ _ _ (fun h => by cases h)
        · simp only [hd, ho, hs, if_false, any_object.kill]
          exact nnr_put_none _ _

theorem free_nnr_eq (s s1 : State V) (p : Nat) (r : Outcome Unit)
    (h : proxy.free s p = (r, s1)) : NoNewReach s.objects s1.objects := by
  have hf := free_nnr s p
  rw [h] at hf
  exact hf

theorem replace_nnr (s : State V) (h : any_holder) (obj : Option Nat) :
    NoNewReach s.objects (any_holder.replace s h obj).2.objects := by
  unfold any_holder.replace
  rcases hd : h.object with _ | o
  · exact nnr_refl _
  · rcases ho : load s.objects o with _ | ob
    · simp only [ho]
      exact nnr_refl _
    · by_cases hs : ob.status = .deposit
      · simp only [ho, hs, if_true]
        exact nnr_put_some _ _ _ (fun h => by cases h)
      · simp only [ho, hs, if_false, any_object.kill]
        exact nnr_put_none _ _

theorem recycle_nnr (s : State V) (this : Nat) :
    NoNewReach s.objects (any.recycle s this).2.objects := by
  unfold any.recycle
  rcases hh : load s.handles this with _ | _ | p
  · exact nnr_refl _
  · exact nnr_refl _
  · rcases hp : load s.proxies p with _ | pr
    · simp only [hp]
      exact nnr_refl _
    · simp only [hp]
      split
      · split <;> rename_i heq <;> have hf := free_nnr_eq _ _ _ _ heq <;> exact hf
      · exact nnr_refl _

theorem recycle_nnr_eq (s s1 : State V) (this : Nat) (r : Outcome Unit)
    (h : any.recycle s this = (r, s1)) : NoNewReach s.objects s1.objects := by
  have hf := recycle_nnr s this
  rw [h] at hf
  exact hf

theorem clone_nnr (s : State V) (this : Nat) :
    NoNewReach s.objects (any.clone s this).2.objects := by
  unfold any.clone
  rcases hh : load s.handles this with _ | _ | p
  · exact nnr_refl _
  · exact nnr_refl _
  · rcases ht : s.target p with _ | ⟨pr, o, ob⟩
    · simp only [ht]
      exact nnr_refl _
    · simp only [ht, any_object.duplicate, proxy.alloc]
      split <;> rename_i heq <;> have hf := recycle_nnr_eq _ _ _ _ heq <;>
        exact nnr_trans (nnr_put_some _ _ _ (fun h => by cases h)) hf

theorem clone_nnr_eq (s s1 : State V) (this : Nat) (r : Outcome Unit)
    (h : any.clone s this = (r, s1)) : NoNewReach s.objects s1.objects := by
  have hf := clone_nnr s this
  rw [h] at hf
  exact hf

end reach

section reach2
variable {V : Type}

theorem nnr_of_eq {m m1 : List (Option (any_object V))} (h : m1 = m) : NoNewReach m m1 := by
  rw [h]
  exact nnr_refl _

theorem try_move_nnr (s : State V) (this : Nat) :
    NoNewReach s.objects (any.try_move s this).2.objects := by
  unfold any.try_move
  rcases hh : load s.handles this with _ | _ | p
  · exact nnr_refl _
  · exact nnr_refl _
  · rcases hp : load s.proxies p with _ | pr
    · simp only [hp]
      exact nnr_refl _
    · simp only [hp]
      split
      · rcases ht : s.target p with _ | ⟨pr1, o, ob⟩
        · simp only [ht]
          exact nnr_refl _
        · simp only [ht]
          split
          · exact nnr_put_some _ _ _ (fun h => by cases h)
          · exact nnr_refl _
      · exact nnr_refl _

theorem share_object_nnr (s : State V) (this : Nat) :
    NoNewReach s.objects (any.share_object s this).2.objects := by
  unfold any.share_object
  rcases hh : load s.handles this with _ | _ | p
  · exact nnr_refl _
  · exact nnr_refl _
  · rcases ht : s.target p with _ | ⟨pr, o, ob⟩
    · simp only [ht]
      exact nnr_refl _
    · simp only [ht]
      exact nnr_put_some _ _ _ (fun h => by cases h)

theorem mark_as_rvalue_nnr (s : State V) (this : Nat) (value : Bool) :
    NoNewReach s.objects (any.mark_as_rvalue s this value).2.objects := by
  unfold any.mark_as_rvalue
  rcases hh : load s.handles this with _ | _ | p
  · exact nnr_refl _
  · exact nnr_refl _
  · rcases ht : s.target p with _ | ⟨pr, o, ob⟩
    · simp only [ht]
      exact nnr_refl _
    · simp only [ht]
      split
      · exact nnr_put_some _ _ _ (fun h => by cases value <;> cases h)
      · exact nnr_refl _

theorem protect_nnr (s : State V) (this : Nat) :
    NoNewReach s.objects (any.protect s this).2.objects := by
  unfold any.protect
  rcases hh : load s.handles this with _ | _ | p
  · exact nnr_refl _
  · exact nnr_refl _
  · rcases ht : s.target p with _ | ⟨pr, o, ob⟩
    · simp only [ht]
      exact nnr_refl _
    · simp only [ht]
      split
      · exact nnr_refl _
      · exact nnr_put_some _ _ _ (fun h => ⟨ob, (target_some s p o pr ob ht).2.2, h⟩)

theorem constant_nnr (s : State V) (this : Nat) :
    NoNewReach s.objects (any.constant s this).2.objects := by
  unfold any.constant
  rcases hh : load s.handles this with _ | _ | p
  · exact nnr_refl _
  · exact nnr_refl _
  · rcases ht : s.target p with _ | ⟨pr, o, ob⟩
    · simp only [ht]
      exact nnr_refl _
    · simp only [ht]
      exact nnr_put_some _ _ _ (fun h => ⟨ob, (target_some s p o pr ob ht).2.2, h⟩)

theorem get_ext_objects (tr : Traits V) (s : State V) (this : Nat) :
    (any.get_ext tr s this).2.objects = s.objects := by
  unfold any.get_ext
  repeat' split
  all_goals rfl

theorem make_nnr (s : State V) (T : Nat) (dat : V) :
    NoNewReach s.objects (any.make s T dat).2.objects :=
  nnr_put_some _ _ _ (fun h => by cases h)

theorem ctor_value_nnr (s : State V) (T : Nat) (dat : V) :
    NoNewReach s.objects (any.ctor_value s T dat).2.objects :=
  nnr_put_some _ _ _ (fun h => by cases h)

theorem make_protect_nnr (s : State V) (T : Nat) (dat : V) :
    NoNewReach s.objects (any.make_protect s T dat).2.objects := by
  unfold any.make_protect
  simp only [any_object.alloc, any.ctor_proxy]
  split <;> rename_i heq <;> have hf := proxy_alloc_authority_nnr_eq _ _ _ _ _ _ heq <;>
    exact nnr_trans (nnr_put_some _ _ _ (fun h => by cases h)) hf

theorem make_constant_nnr (s : State V) (T : Nat) (dat : V) :
    NoNewReach s.objects (any.make_constant s T dat).2.objects := by
  unfold any.make_constant
  simp only [any_object.alloc, any.ctor_proxy]
  split <;> rename_i heq <;> have hf := proxy_alloc_authority_nnr_eq _ _ _ _ _ _ heq <;>
    exact nnr_trans (nnr_put_some _ _ _ (fun h => by cases h)) hf

theorem ctor_holder_nnr (s : State V) (holder : any_holder) :
    NoNewReach s.objects (any.ctor_holder s holder).2.objects := by
  unfold any.ctor_holder
  simp only [proxy.alloc, any.ctor_proxy]
  rcases hd : holder.object with _ | o
  · exact nnr_refl _
  · rcases ho : load s.objects o with _ | ob
    · simp only [ho]
      exact nnr_refl _
    · simp only [ho]
      exact nnr_put_some _ _ _ (fun h => by cases h)

theorem swap_objects_eq (s s1 : State V) (this obj : Nat) (raw : Bool) (r : Outcome Unit)
    (h : any.swap s this obj raw = (r, s1)) : s1.objects = s.objects := by
  have hf := swap_objects s this obj raw
  rw [h] at hf
  exact hf

theorem ctor_move_objects (s : State V) (v : Nat) :
    (any.ctor_move s v).2.objects = s.objects := by
  unfold any.ctor_move
  simp only [any.ctor_proxy]
  split <;> rename_i heq <;> have hf := swap_objects_eq _ _ _ _ _ _ heq <;> exact hf

theorem operator_assign_move_objects (s : State V) (this var : Nat) :
    (any.operator_assign_move s this var).2.objects = s.objects := by
  unfold any.operator_assign_move
  split
  · exact swap_objects _ _ _ _
  · split <;> rfl

theorem dtor_nnr (s : State V) (this : Nat) :
    NoNewReach s.objects (any.dtor s this).2.objects := by
  unfold any.dtor
  split <;> rename_i heq <;> have hf := recycle_nnr_eq _ _ _ _ heq <;> exact hf

theorem operator_assign_nnr (s : State V) (this var : Nat) :
    NoNewReach s.objects (any.operator_assign s this var).2.objects := by
  unfold any.operator_assign
  split
  · split
    · rename_i heq
      have hf := recycle_nnr_eq _ _ _ _ heq
      split <;> rename_i heq2 <;> have hg := duplicate_objects_eq _ _ _ _ heq2 <;>
        simp only [hg] <;> exact hf
    · rename_i heq
      exact recycle_nnr_eq _ _ _ _ heq
    · rename_i heq
      exact recycle_nnr_eq _ _ _ _ heq
  · split <;> exact nnr_refl _

theorem val_nnr (s : State V) (this T : Nat) (raw : Bool) :
    NoNewReach s.objects (any.val s this T raw).2.objects := by
  unfold any.val
  repeat' split
  all_goals first
    | exact nnr_refl _
    | exact clone_nnr_eq s _ this _ (by assumption)

theorem assign_nnr (s : State V) (this obj : Nat) (raw : Bool) :
    NoNewReach s.objects (any.assign s this obj raw).2.objects := by
  unfold any.assign
  repeat' split
  all_goals try dsimp only
  all_goals first
    | exact nnr_refl _
    | exact recycle_nnr_eq s _ this _ (by assumption)
    | exact kill_nnr_eq s _ _ _ (by assumption)
    | exact nnr_trans (nnr_trans (recycle_nnr_eq s _ this _ (by assumption))
        (object_duplicate_nnr_eq _ _ _ _ (by assumption)))
        (nnr_of_eq (proxy_alloc_objects_eq _ _ _ _ _ (by assumption)))
    | exact nnr_trans (kill_nnr_eq s _ _ _ (by assumption))
        (object_duplicate_nnr_eq _ _ _ _ (by assumption))

theorem assign_value_nnr (s : State V) (this T : Nat) (dat : V) (raw : Bool) :
    NoNewReach s.objects (any.assign_value s this T dat raw).2.objects := by
  unfold any.assign_value
  repeat' split
  all_goals try dsimp only
  all_goals first
    | exact nnr_refl _
    | exact recycle_nnr_eq s _ this _ (by assumption)
    | exact kill_nnr_eq s _ _ _ (by assumption)
    | exact nnr_trans (nnr_trans (recycle_nnr_eq s _ this _ (by assumption))
        (object_alloc_nnr_eq _ _ _ _ _ (by assumption)))
        (nnr_of_eq (proxy_alloc_objects_eq _ _ _ _ _ (by assumption)))
    | exact nnr_trans (kill_nnr_eq s _ _ _ (by assumption))
        (object_alloc_nnr_eq _ _ _ _ _ (by assumption))

end reach2

/-! ## Which operations keep the `reachable` status -/

section reach3
variable {V : Type}

theorem shrunkR_refl (m : List (Option (any_object V))) : ShrunkR m m :=
  fun _ ob1 h => ⟨ob1, h, fun hr => hr⟩

theorem keptR_refl (m : List (Option (any_object V))) : KeptR m m :=
  fun _ ob h => ⟨ob, h, fun hr => hr⟩

theorem keptR_trans {m m1 m2 : List (Option (any_object V))} (h1 : KeptR m m1)
    (h2 : KeptR m1 m2) : KeptR m m2 := by
  intro x ob hx
  obtain ⟨ob1, hx1, k1⟩ := h1 x ob hx
  obtain ⟨ob2, hx2, k2⟩ := h2 x ob1 hx1
  exact ⟨ob2, hx2, fun hr => k2 (k1 hr)⟩

theorem reachKept_refl (m : List (Option (any_object V))) : ReachKept m m := by
  intro x ob ob1 hx hx1 hr
  rw [hx] at hx1
  cases hx1
  exact hr

theorem reachKept_of_eq {m m1 : List (Option (any_object V))} (h : m1 = m) :
    ReachKept m m1 := by
  rw [h]
  exact reachKept_refl _

theorem reachKept_of_shrunkR {m m1 : List (Option (any_object V))} (h : ShrunkR m m1) :
    ReachKept m m1 := by
  intro x ob ob1 hx hx1 hr
  obtain ⟨ob0, h0, k⟩ := h x ob1 hx1
  rw [hx] at h0
  cases h0
  exact k hr

theorem reachKept_of_keptR {m m1 : List (Option (any_object V))} (h : KeptR m m1) :
    ReachKept m m1 := by
  intro x ob ob1 hx hx1 hr
  obtain ⟨ob0, h0, k⟩ := h x ob hx
  rw [hx1] at h0
  cases h0
  exact k hr

theorem reachKept_keptR_shrunkR {m m1 m2 : List (Option (any_object V))} (h1 : KeptR m m1)
    (h2 : ShrunkR m1 m2) : ReachKept m m2 := by
  intro x ob ob2 hx hx2 hr
  obtain ⟨ob1, hx1, k1⟩ := h1 x ob hx
  obtain ⟨ob1b, hx1b, k2⟩ := h2 x ob2 hx2
  rw [hx1] at hx1b
  cases hx1b
  exact k2 (k1 hr)

theorem shrunkR_put_none (m : List (Option (any_object V))) (o : Nat) :
    ShrunkR m (put m o none) := by
  intro x ob1 hx
  rw [load_put] at hx
  split at hx
  · cases hx
  · exact ⟨ob1, hx, fun hr => hr⟩

theorem shrunkR_put_some (m : List (Option (any_object V))) (o : Nat) (ob ob2 : any_object V)
    (ho : load m o = some ob) (k : ob.status = .reachable → ob2.status = .reachable) :
    ShrunkR m (put m o (some ob2)) := by
  intro x ob1 hx
  rw [load_put] at hx
  split at hx
  · rename_i hxo
    cases hx
    exact ⟨ob, hxo ▸ ho, k⟩
  · exact ⟨ob1, hx, fun hr => hr⟩

theorem keptR_put_some (m : List (Option (any_object V))) (o : Nat) (ob ob2 : any_object V)
    (ho : load m o = some ob) (k : ob.status = .reachable → ob2.status = .reachable) :
    KeptR m (put m o (some ob2)) := by
  intro x ob1 hx
  rw [load_put]
  split
  · rename_i hxo
    subst hxo
    rw [ho] at hx
    cases hx
    exact ⟨ob2, rfl, k⟩
  · exact ⟨ob1, hx, fun hr => hr⟩

theorem keptR_put_fresh (m : List (Option (any_object V))) (ob2 : any_object V) :
    KeptR m (put m (fresh m) (some ob2)) := by
  intro x ob1 hx
  rw [load_put]
  split
  · rename_i hxo
    subst hxo
    rw [load_fresh] at hx
    cases hx
  · exact ⟨ob1, hx, fun hr => hr⟩

theorem kill_shrunkR (s : State V) (o : Nat) :
    ShrunkR s.objects (any_object.kill s o).2.objects := by
  unfold any_object.kill
  split
  · exact shrunkR_refl _
  · exact shrunkR_put_none _ _

theorem kill_shrunkR_eq (s s1 : State V) (o : Nat) (r : Outcome Unit)
    (h : any_object.kill s o = (r, s1)) : ShrunkR s.objects s1.objects := by
  have hf := kill_shrunkR s o
  rw [h] at hf
  exact hf

theorem free_shrunkR (s : State V) (p : Nat) :
    ShrunkR s.objects (proxy.free s p).2.objects := by
  unfold proxy.free
  rcases hp : load s.proxies p with _ | pr
  · exact shrunkR_refl _
  · rcases hd : pr.data with _ | o
    · simp only [hd]
      exact shrunkR_refl _
    · rcases ho : load s.objects o with _ | ob
      · simp only [hd, ho]
        exact shrunkR_refl _
      · by_cases hs : ob.status = .deposit
        · simp only [hd, ho, hs, if_true]
          exact shrunkR_put_some _ _ ob _ ho (fun hr => by rw [hs] at hr; cases hr)
        · simp only [hd, ho, hs, if_false, any_object.kill]
          exact shrunkR_put_none _ _

theorem free_shrunkR_eq (s s1 : State V) (p : Nat) (r : Outcome Unit)
    (h : proxy.free s p = (r, s1)) : ShrunkR s.objects s1.objects := by
  have hf := free_shrunkR s p
  rw [h] at hf
  exact hf

theorem replace_shrunkR (s : State V) (h : any_holder) (obj : Option Nat) :
    ShrunkR s.objects (any_holder.replace s h obj).2.objects := by
  unfold any_holder.replace
  rcases hd : h.object with _ | o
  · exact shrunkR_refl _
  · rcases ho : load s.objects o with _ | ob
    · simp only [ho]
      exact shrunkR_refl _
    · by_cases hs : ob.status = .deposit
      · simp only [ho, hs, if_true]
        exact shrunkR_put_some _ _ ob _ ho (fun hr => by rw [hs] at hr; cases hr)
      · simp only [ho, hs, if_false, any_object.kill]
        exact shrunkR_put_none _ _

theorem recycle_shrunkR (s : State V) (this : Nat) :
    ShrunkR s.objects (any.recycle s this).2.objects := by
  unfold any.recycle
  rcases hh : load s.handles this with _ | _ | p
  · exact shrunkR_refl _
  · exact shrunkR_refl _
  · rcases hp : load s.proxies p with _ | pr
    · simp only [hp]
      exact shrunkR_refl _
    · simp only [hp]
      split
      · split <;> rename_i heq <;> have hf := free_shrunkR_eq _ _ _ _ heq <;> exact hf
      · exact shrunkR_refl _

theorem recycle_shrunkR_eq (s s1 : State V) (this : Nat) (r : Outcome Unit)
    (h : any.recycle s this = (r, s1)) : ShrunkR s.objects s1.objects := by
  have hf := recycle_shrunkR s this
  rw [h] at hf
  exact hf

theorem clone_reachKept (s : State V) (this : Nat) :
    ReachKept s.objects (any.clone s this).2.objects := by
  unfold any.clone
  rcases hh : load s.handles this with _ | _ | p
  · exact reachKept_refl _
  · exact reachKept_refl _
  · rcases ht : s.target p with _ | ⟨pr, o, ob⟩
    · simp only [ht]
      exact reachKept_refl _
    · simp only [ht, any_object.duplicate, proxy.alloc]
      split <;> rename_i heq <;> have hf := recycle_shrunkR_eq _ _ _ _ heq <;>
        exact reachKept_keptR_shrunkR (keptR_put_fresh _ _) hf

theorem clone_reachKept_eq (s s1 : State V) (this : Nat) (r : Outcome Unit)
    (h : any.clone s this = (r, s1)) : ReachKept s.objects s1.objects := by
  have hf := clone_reachKept s this
  rw [h] at hf
  exact hf

theorem dtor_shrunkR (s : State V) (this : Nat) :
    ShrunkR s.objects (any.dtor s this).2.objects := by
  unfold any.dtor
  split <;> rename_i heq <;> have hf := recycle_shrunkR_eq _ _ _ _ heq <;> exact hf

theorem operator_assign_shrunkR (s : State V) (this var : Nat) :
    ShrunkR s.objects (any.operator_assign s this var).2.objects := by
  unfold any.operator_assign
  split
  · split
    · rename_i heq
      have hf := recycle_shrunkR_eq _ _ _ _ heq
      split <;> rename_i heq2 <;> have hg := duplicate_objects_eq _ _ _ _ heq2 <;>
        simp only [hg] <;> exact hf
    · rename_i heq
      exact recycle_shrunkR_eq _ _ _ _ heq
    · rename_i heq
      exact recycle_shrunkR_eq _ _ _ _ heq
  · split <;> exact shrunkR_refl _

theorem val_reachKept (s : State V) (this T : Nat) (raw : Bool) :
    ReachKept s.objects (any.val s this T raw).2.objects := by
  unfold any.val
  repeat' split
  all_goals first
    | exact reachKept_refl _
    | exact clone_reachKept_eq s _ this _ (by assumption)

theorem protect_keptR (s : State V) (this : Nat) :
    KeptR s.objects (any.protect s this).2.objects := by
  unfold any.protect
  rcases hh : load s.handles this with _ | _ | p
  · exact keptR_refl _
  · exact keptR_refl _
  · rcases ht : s.target p with _ | ⟨pr, o, ob⟩
    · simp only [ht]
      exact keptR_refl _
    · simp only [ht]
      split
      · exact keptR_refl _
      · exact keptR_put_some _ _ ob _ (target_some s p o pr ob ht).2.2 (fun hr => hr)

theorem constant_keptR (s : State V) (this : Nat) :
    KeptR s.objects (any.constant s this).2.objects := by
  unfold any.constant
  rcases hh : load s.handles this with _ | _ | p
  · exact keptR_refl _
  · exact keptR_refl _
  · rcases ht : s.target p with _ | ⟨pr, o, ob⟩
    · simp only [ht]
      exact keptR_refl _
    · simp only [ht]
      exact keptR_put_some _ _ ob _ (target_some s p o pr ob ht).2.2 (fun hr => hr)

theorem try_move_keptR (s : State V) (this : Nat) :
    KeptR s.objects (any.try_move s this).2.objects := by
  unfold any.try_move
  rcases hh : load s.handles this with _ | _ | p
  · exact keptR_refl _
  · exact keptR_refl _
  · rcases hp : load s.proxies p with _ | pr
    · simp only [hp]
      exact keptR_refl _
    · simp only [hp]
      split
      · rcases ht : s.target p with _ | ⟨pr1, o, ob⟩
        · simp only [ht]
          exact keptR_refl _
        · simp only [ht]
          split
          · rename_i hs
            exact keptR_put_some _ _ ob _ (target_some s p o pr1 ob ht).2.2
              (fun hr => by rw [hs] at hr; cases hr)
          · exact keptR_refl _
      · exact keptR_refl _

theorem make_keptR (s : State V) (T : Nat) (dat : V) :
    KeptR s.objects (any.make s T dat).2.objects :=
  keptR_put_fresh _ _

theorem ctor_value_keptR (s : State V) (T : Nat) (dat : V) :
    KeptR s.objects (any.ctor_value s T dat).2.objects :=
  keptR_put_fresh _ _

theorem proxy_alloc_authority_keptR (s : State V) (a : object_authority) (rc : Nat)
    (d : Option Nat) : KeptR s.objects (proxy.alloc_authority s a rc d).2.objects := by
  unfold proxy.alloc_authority
  rcases d with _ | o
  · exact keptR_refl _
  · rcases ho : load s.objects o with _ | ob
    · simp only [ho]
      exact keptR_refl _
    · simp only [ho]
      exact keptR_put_some _ _ ob _ ho (fun hr => hr)

theorem proxy_alloc_authority_keptR_eq (s s1 : State V) (a : object_authority) (rc : Nat)
    (d : Option Nat) (r : Outcome Nat) (h : proxy.alloc_authority s a rc d = (r, s1)) :
    KeptR s.objects s1.objects := by
  have hf := proxy_alloc_authority_keptR s a rc d
  rw [h] at hf
  exact hf

theorem make_protect_keptR (s : State V) (T : Nat) (dat : V) :
    KeptR s.objects (any.make_protect s T dat).2.objects := by
  unfold any.make_protect
  simp only [any_object.alloc, any.ctor_proxy]
  split <;> rename_i heq <;> have hf := proxy_alloc_authority_keptR_eq _ _ _ _ _ _ heq <;>
    exact keptR_trans (keptR_put_fresh _ _) hf

theorem make_constant_keptR (s : State V) (T : Nat) (dat : V) :
    KeptR s.objects (any.make_constant s T dat).2.objects := by
  unfold any.make_constant
  simp only [any_object.alloc, any.ctor_proxy]
  split <;> rename_i heq <;> have hf := proxy_alloc_authority_keptR_eq _ _ _ _ _ _ heq <;>
    exact keptR_trans (keptR_put_fresh _ _) hf

end reach3

section reach4
variable {V : Type}

theorem instance_of_target (s : State V) (this p o : Nat) (pr : proxy) (ob : any_object V)
    (hh : load s.handles this = some (some p)) (ht : s.target p = some (pr, o, ob)) :
    any.instance s this = some o := by
  obtain ⟨hp, hd, _⟩ := target_some s p o pr ob ht
  simp [any.instance, hh, hp, hd]

theorem alloc_after_kill_reach (m : List (Option (any_object V))) (o x : Nat)
    (nb ob ob1 : any_object V) (hx : load m x = some ob)
    (hx1 : load (put (put m o none) (fresh (put m o none)) (some nb)) x = some ob1) :
    (ob.status = .reachable → ob1.status = .reachable) ∨ x = o := by
  by_cases hxo : x = o
  · exact Or.inr hxo
  · left
    rw [load_put] at hx1
    split at hx1
    · rename_i hxf
      have hnone : load (put m o none) x = none := by
        rw [hxf]
        exact load_fresh _
      rw [load_put, if_neg hxo, hx] at hnone
      cases hnone
    · rw [load_put, if_neg hxo, hx] at hx1
      cases hx1
      exact fun hr => hr

theorem kill_then_duplicate_reach (s s1 s2 : State V) (this p o1 o3 x : Nat) (pr : proxy)
    (r : Outcome Unit) (ob0 nb ob ob1 : any_object V)
    (hk : any_object.kill s o1 = (r, s1)) (hd : any_object.duplicate s1 nb = (o3, s2))
    (hh : load s.handles this = some (some p)) (ht : s.target p = some (pr, o1, ob0))
    (h : load s.objects x = some ob) (h1 : load s2.objects x = some ob1) :
    (ob.status = .reachable → ob1.status = .reachable) ∨ any.instance s this = some x := by
  have ho := (target_some s p o1 pr ob0 ht).2.2
  rw [kill_of_load s o1 ob0 ho] at hk
  cases hk
  simp only [any_object.duplicate, Prod.mk.injEq] at hd
  obtain ⟨_, rfl⟩ := hd
  rcases alloc_after_kill_reach s.objects o1 x _ ob ob1 h h1 with hk | hk
  · exact Or.inl hk
  · right
    rw [hk]
    exact instance_of_target s this p o1 pr ob0 hh ht

theorem kill_then_alloc_reach (s s1 s2 : State V) (this p o1 o3 x T : Nat) (dat : V)
    (pr : proxy) (r : Outcome Unit) (ob0 ob ob1 : any_object V)
    (hk : any_object.kill s o1 = (r, s1)) (hd : any_object.alloc s1 T dat = (o3, s2))
    (hh : load s.handles this = some (some p)) (ht : s.target p = some (pr, o1, ob0))
    (h : load s.objects x = some ob) (h1 : load s2.objects x = some ob1) :
    (ob.status = .reachable → ob1.status = .reachable) ∨ any.instance s this = some x := by
  have ho := (target_some s p o1 pr ob0 ht).2.2
  rw [kill_of_load s o1 ob0 ho] at hk
  cases hk
  simp only [any_object.alloc, Prod.mk.injEq] at hd
  obtain ⟨_, rfl⟩ := hd
  rcases alloc_after_kill_reach s.objects o1 x _ ob ob1 h h1 with hk | hk
  · exact Or.inl hk
  · right
    rw [hk]
    exact instance_of_target s this p o1 pr ob0 hh ht

theorem alloc_after_recycle_reach (s s1 : State V) (this x : Nat) (r : Outcome Unit)
    (ob ob1 nb : any_object V) (he : any.recycle s this = (r, s1))
    (h : load s.objects x = some ob)
    (h1 : load (put s1.objects (fresh s1.objects) (some nb)) x = some ob1) :
    (ob.status = .reachable → ob1.status = .reachable) ∨ any.releases s this x = true := by
  rw [load_put] at h1
  split at h1
  · rename_i hxf
    right
    apply recycle_released_eq s s1 this x r ob he h
    rw [hxf]
    exact load_fresh _
  · left
    exact reachKept_of_shrunkR (recycle_shrunkR_eq s s1 this r he) x ob ob1 h h1

theorem recycle_then_duplicate_reach (s s1 s2 s3 : State V) (this o3 p3 x : Nat)
    (r : Outcome Unit) (d : Option Nat) (nb ob ob1 : any_object V)
    (he : any.recycle s this = (r, s1)) (hd : any_object.duplicate s1 nb = (o3, s2))
    (hp : proxy.alloc s2 1 d = (p3, s3))
    (h : load s.objects x = some ob) (h1 : load s3.objects x = some ob1) :
    (ob.status = .reachable → ob1.status = .reachable) ∨ any.releases s this x = true := by
  simp only [any_object.duplicate, Prod.mk.injEq] at hd
  obtain ⟨_, rfl⟩ := hd
  simp only [proxy.alloc, Prod.mk.injEq] at hp
  obtain ⟨_, rfl⟩ := hp
  exact alloc_after_recycle_reach s s1 this x r ob ob1 _ he h h1

theorem recycle_then_alloc_reach (s s1 s2 s3 : State V) (this o3 p3 x T : Nat) (dat : V)
    (r : Outcome Unit) (d : Option Nat) (ob ob1 : any_object V)
    (he : any.recycle s this = (r, s1)) (hd : any_object.alloc s1 T dat = (o3, s2))
    (hp : proxy.alloc s2 1 d = (p3, s3))
    (h : load s.objects x = some ob) (h1 : load s3.objects x = some ob1) :
    (ob.status = .reachable → ob1.status = .reachable) ∨ any.releases s this x = true := by
  simp only [any_object.alloc, Prod.mk.injEq] at hd
  obtain ⟨_, rfl⟩ := hd
  simp only [proxy.alloc, Prod.mk.injEq] at hp
  obtain ⟨_, rfl⟩ := hp
  exact alloc_after_recycle_reach s s1 this x r ob ob1 _ he h h1

theorem assign_reach (s : State V) (this obj x : Nat) (raw : Bool) (ob ob1 : any_object V)
    (h : load s.objects x = some ob)
    (h1 : load (any.assign s this obj raw).2.objects x = some ob1) :
    (ob.status = .reachable → ob1.status = .reachable) ∨ any.releases s this x = true ∨
      (raw = true ∧ any.instance s this = some x) := by
  unfold any.assign at h1
  repeat' split at h1
  all_goals try dsimp only at h1
  all_goals first
    | (rw [h] at h1; cases h1; exact Or.inl (fun hr => hr))
    | exact Or.inl (reachKept_of_shrunkR
        (recycle_shrunkR_eq s _ this _ (by assumption)) x ob ob1 h h1)
    | exact Or.inl (reachKept_of_shrunkR
        (kill_shrunkR_eq s _ _ _ (by assumption)) x ob ob1 h h1)
    | exact (recycle_then_duplicate_reach s _ _ _ this _ _ x _ _ _ ob ob1
        (by assumption) (by assumption) (by assumption) h h1).imp_right Or.inl
    | exact (kill_then_duplicate_reach s _ _ this _ _ _ x _ _ _ _ ob ob1
        (by assumption) (by assumption) (by assumption) (by assumption) h h1).imp_right
        (fun hi => Or.inr ⟨rfl, hi⟩)

theorem assign_value_reach (s : State V) (this T x : Nat) (dat : V) (raw : Bool)
    (ob ob1 : any_object V) (h : load s.objects x = some ob)
    (h1 : load (any.assign_value s this T dat raw).2.objects x = some ob1) :
    (ob.status = .reachable → ob1.status = .reachable) ∨ any.releases s this x = true ∨
      (raw = true ∧ any.instance s this = some x) := by
  unfold any.assign_value at h1
  repeat' split at h1
  all_goals try dsimp only at h1
  all_goals first
    | (rw [h] at h1; cases h1; exact Or.inl (fun hr => hr))
    | exact Or.inl (reachKept_of_shrunkR
        (recycle_shrunkR_eq s _ this _ (by assumption)) x ob ob1 h h1)
    | exact Or.inl (reachKept_of_shrunkR
        (kill_shrunkR_eq s _ _ _ (by assumption)) x ob ob1 h h1)
    | exact (recycle_then_alloc_reach s _ _ _ this _ _ x _ _ _ _ ob ob1
        (by assumption) (by assumption) (by assumption) h h1).imp_right Or.inl
    | exact (kill_then_alloc_reach s _ _ this _ _ _ x _ _ _ _ _ ob ob1
        (by assumption) (by assumption) (by assumption) (by assumption) h h1).imp_right
        (fun hi => Or.inr ⟨rfl, hi⟩)

end reach4

/-! ## Which operations destroy an instance -/

section destroy
variable {V : Type}

theorem alive_refl (m : List (Option (any_object V))) : Alive m m :=
  fun _ ob h => ⟨ob, h⟩

theorem alive_of_eq {m m1 : List (Option (any_object V))} (h : m1 = m) : Alive m m1 := by
  rw [h]
  exact alive_refl _

theorem alive_trans {m m1 m2 : List (Option (any_object V))} (h1 : Alive m m1)
    (h2 : Alive m1 m2) : Alive m m2 := by
  intro x ob hx
  obtain ⟨ob1, hx1⟩ := h1 x ob hx
  exact h2 x ob1 hx1

theorem alive_put_some (m : List (Option (any_object V))) (o : Nat) (ob2 : any_object V) :
    Alive m (put m o (some ob2)) := by
  intro x ob hx
  rw [load_put]
  split
  · exact ⟨ob2, rfl⟩
  · exact ⟨ob, hx⟩

theorem alive_of_keptR {m m1 : List (Option (any_object V))} (h : KeptR m m1) : Alive m m1 := by
  intro x ob hx
  obtain ⟨ob1, hx1, _⟩ := h x ob hx
  exact ⟨ob1, hx1⟩

theorem mark_as_rvalue_alive (s : State V) (this : Nat) (value : Bool) :
    Alive s.objects (any.mark_as_rvalue s this value).2.objects := by
  unfold any.mark_as_rvalue
  repeat' split
  all_goals first
    | exact alive_refl _
    | exact alive_put_some _ _ _

theorem ctor_holder_alive (s : State V) (holder : any_holder) :
    Alive s.objects (any.ctor_holder s holder).2.objects := by
  unfold any.ctor_holder
  simp only [proxy.alloc, any.ctor_proxy]
  repeat' split
  all_goals first
    | exact alive_refl _
    | exact alive_put_some _ _ _

theorem only_released_refl (s : State V) (this : Nat) : OnlyReleased s this s.objects := by
  intro x ob hx hx1
  rw [hx] at hx1
  cases hx1

theorem only_released_of_alive (s : State V) (this : Nat) (m1 : List (Option (any_object V)))
    (h : Alive s.objects m1) : OnlyReleased s this m1 := by
  intro x ob hx hx1
  obtain ⟨ob1, h1⟩ := h x ob hx
  rw [hx1] at h1
  cases h1

theorem recycle_only_released (s : State V) (this : Nat) :
    OnlyReleased s this (any.recycle s this).2.objects :=
  fun x ob hx hx1 => recycle_released s this x ob hx hx1

theorem recycle_only_released_eq (s s1 : State V) (this : Nat) (r : Outcome Unit)
    (h : any.recycle s this = (r, s1)) : OnlyReleased s this s1.objects :=
  fun x ob hx hx1 => recycle_released_eq s s1 this x r ob h hx hx1

theorem dtor_only_released (s : State V) (this : Nat) :
    OnlyReleased s this (any.dtor s this).2.objects := by
  unfold any.dtor
  split <;> rename_i heq <;> have hf := recycle_only_released_eq _ _ _ _ heq <;> exact hf

theorem operator_assign_only_released (s : State V) (this var : Nat) :
    OnlyReleased s this (any.operator_assign s this var).2.objects := by
  unfold any.operator_assign
  split
  · split
    · rename_i heq
      have hf := recycle_only_released_eq _ _ _ _ heq
      split <;> rename_i heq2 <;> have hg := duplicate_objects_eq _ _ _ _ heq2 <;>
        simp only [hg] <;> exact hf
    · rename_i heq
      exact recycle_only_released_eq _ _ _ _ heq
    · rename_i heq
      exact recycle_only_released_eq _ _ _ _ heq
  · split <;> exact only_released_refl _ _

theorem releases_congr (s s2 : State V) (this x : Nat)
    (hh : load s2.handles this = load s.handles this)
    (ht : ∀ p, load s.handles this = some (some p) → s2.target p = s.target p) :
    any.releases s2 this x = any.releases s this x := by
  unfold any.releases
  rw [hh]
  rcases hl : load s.handles this with _ | _ | p
  · rfl
  · rfl
  · simp only [ht p hl]

theorem clone_only_released (s : State V) (this : Nat) :
    OnlyReleased s this (any.clone s this).2.objects := by
  unfold any.clone
  rcases hh : load s.handles this with _ | _ | p
  · exact only_released_refl _ _
  · exact only_released_refl _ _
  · rcases ht : s.target p with _ | ⟨pr, o, ob⟩
    · simp only [ht]
      exact only_released_refl _ _
    · obtain ⟨hp, hd, ho⟩ := target_some s p o pr ob ht
      have hpf : p ≠ fresh s.proxies := ne_fresh_of_load _ _ _ hp
      have hof : o ≠ fresh s.objects := ne_fresh_of_load _ _ _ ho
      simp only [ht, any_object.duplicate, proxy.alloc]
      have key : ∀ (r : Outcome Unit) (s3 : State V),
          any.recycle
            ({ objects := put s.objects (fresh s.objects)
                (some { type := ob.type, mDat := ob.mDat })
               proxies := put s.proxies (fresh s.proxies)
                (some { refcount := 1, data := some (fresh s.objects) })
               handles := s.handles } : State V) this = (r, s3) →
          OnlyReleased s this s3.objects := by
        intro r s3 heq x ob0 hx hx1
        have hxf : x ≠ fresh s.objects := ne_fresh_of_load _ _ _ hx
        have h2 := recycle_released_eq _ s3 this x r ob0 heq
          (by simp [load_put, hxf, hx]) hx1
        refine (releases_congr s _ this x ?_ ?_).symm.trans h2
        · rfl
        · intro p1 hp1
          rw [hh] at hp1
          cases hp1
          simp [State.target, load_put, hpf, hp, hd, hof, ho]
      split <;> rename_i heq <;> have hf := key _ _ heq <;> exact hf

theorem clone_only_released_eq (s s1 : State V) (this : Nat) (r : Outcome Unit)
    (h : any.clone s this = (r, s1)) : OnlyReleased s this s1.objects := by
  have hf := clone_only_released s this
  rw [h] at hf
  exact hf

theorem val_only_released (s : State V) (this T : Nat) (raw : Bool) :
    OnlyReleased s this (any.val s this T raw).2.objects := by
  unfold any.val
  repeat' split
  all_goals first
    | exact only_released_refl _ _
    | exact clone_only_released_eq s _ this _ (by assumption)

end destroy

section destroy2
variable {V : Type}

theorem kill_gone (s s1 : State V) (this p o1 x : Nat) (pr : proxy) (r : Outcome Unit)
    (ob0 ob : any_object V) (hk : any_object.kill s o1 = (r, s1))
    (hh : load s.handles this = some (some p)) (ht : s.target p = some (pr, o1, ob0))
    (h : load s.objects x = some ob) (h1 : load s1.objects x = none) :
    any.instance s this = some x := by
  have ho := (target_some s p o1 pr ob0 ht).2.2
  rw [kill_of_load s o1 ob0 ho] at hk
  cases hk
  simp only [load_put] at h1
  split at h1
  · rename_i hxo
    rw [hxo]
    exact instance_of_target s this p o1 pr ob0 hh ht
  · rw [h] at h1
    cases h1

theorem put_fresh_gone (m : List (Option (any_object V))) (x : Nat) (nb : any_object V)
    (h1 : load (put m (fresh m) (some nb)) x = none) : load m x = none := by
  rw [load_put] at h1
  split at h1
  · cases h1
  · exact h1

theorem kill_then_duplicate_gone (s s1 s2 : State V) (this p o1 o3 x : Nat) (pr : proxy)
    (r : Outcome Unit) (ob0 nb ob : any_object V)
    (hk : any_object.kill s o1 = (r, s1)) (hd : any_object.duplicate s1 nb = (o3, s2))
    (hh : load s.handles this = some (some p)) (ht : s.target p = some (pr, o1, ob0))
    (h : load s.objects x = some ob) (h1 : load s2.objects x = none) :
    any.instance s this = some x := by
  simp only [any_object.duplicate, Prod.mk.injEq] at hd
  obtain ⟨_, rfl⟩ := hd
  exact kill_gone s s1 this p o1 x pr r ob0 ob hk hh ht h (put_fresh_gone _ _ _ h1)

theorem kill_then_alloc_gone (s s1 s2 : State V) (this p o1 o3 x T : Nat) (dat : V)
    (pr : proxy) (r : Outcome Unit) (ob0 ob : any_object V)
    (hk : any_object.kill s o1 = (r, s1)) (hd : any_object.alloc s1 T dat = (o3, s2))
    (hh : load s.handles this = some (some p)) (ht : s.target p = some (pr, o1, ob0))
    (h : load s.objects x = some ob) (h1 : load s2.objects x = none) :
    any.instance s this = some x := by
  simp only [any_object.alloc, Prod.mk.injEq] at hd
  obtain ⟨_, rfl⟩ := hd
  exact kill_gone s s1 this p o1 x pr r ob0 ob hk hh ht h (put_fresh_gone _ _ _ h1)

theorem recycle_then_duplicate_gone (s s1 s2 s3 : State V) (this o3 p3 x : Nat)
    (r : Outcome Unit) (d : Option Nat) (nb ob : any_object V)
    (he : any.recycle s this = (r, s1)) (hd : any_object.duplicate s1 nb = (o3, s2))
    (hp : proxy.alloc s2 1 d = (p3, s3))
    (h : load s.objects x = some ob) (h1 : load s3.objects x = none) :
    any.releases s this x = true := by
  simp only [any_object.duplicate, Prod.mk.injEq] at hd
  obtain ⟨_, rfl⟩ := hd
  simp only [proxy.alloc, Prod.mk.injEq] at hp
  obtain ⟨_, rfl⟩ := hp
  exact recycle_released_eq s s1 this x r ob he h (put_fresh_gone _ _ _ h1)

theorem recycle_then_alloc_gone (s s1 s2 s3 : State V) (this o3 p3 x T : Nat) (dat : V)
    (r : Outcome Unit) (d : Option Nat) (ob : any_object V)
    (he : any.recycle s this = (r, s1)) (hd : any_object.alloc s1 T dat = (o3, s2))
    (hp : proxy.alloc s2 1 d = (p3, s3))
    (h : load s.objects x = some ob) (h1 : load s3.objects x = none) :
    any.releases s this x = true := by
  simp only [any_object.alloc, Prod.mk.injEq] at hd
  obtain ⟨_, rfl⟩ := hd
  simp only [proxy.alloc, Prod.mk.injEq] at hp
  obtain ⟨_, rfl⟩ := hp
  exact recycle_released_eq s s1 this x r ob he h (put_fresh_gone _ _ _ h1)

theorem assign_gone (s : State V) (this obj x : Nat) (raw : Bool) (ob : any_object V)
    (h : load s.objects x = some ob)
    (h1 : load (any.assign s this obj raw).2.objects x = none) :
    any.releases s this x = true ∨ (raw = true ∧ any.instance s this = some x) := by
  unfold any.assign at h1
  repeat' split at h1
  all_goals try dsimp only at h1
  all_goals first
    | (rw [h] at h1; cases h1)
    | exact Or.inl (recycle_released_eq s _ this x _ ob (by assumption) h h1)
    | exact Or.inl (recycle_then_duplicate_gone s _ _ _ this _ _ x _ _ _ ob
        (by assumption) (by assumption) (by assumption) h h1)
    | exact Or.inr ⟨rfl, kill_gone s _ this _ _ x _ _ _ ob
        (by assumption) (by assumption) (by assumption) h h1⟩
    | exact Or.inr ⟨rfl, kill_then_duplicate_gone s _ _ this _ _ _ x _ _ _ _ ob
        (by assumption) (by assumption) (by assumption) (by assumption) h h1⟩

theorem assign_value_gone (s : State V) (this T x : Nat) (dat : V) (raw : Bool)
    (ob : any_object V) (h : load s.objects x = some ob)
    (h1 : load (any.assign_value s this T dat raw).2.objects x = none) :
    any.releases s this x = true ∨ (raw = true ∧ any.instance s this = some x) := by
  unfold any.assign_value at h1
  repeat' split at h1
  all_goals try dsimp only at h1
  all_goals first
    | (rw [h] at h1; cases h1)
    | exact Or.inl (recycle_released_eq s _ this x _ ob (by assumption) h h1)
    | exact Or.inl (recycle_then_alloc_gone s _ _ _ this _ _ x _ _ _ _ ob
        (by assumption) (by assumption) (by assumption) h h1)
    | exact Or.inr ⟨rfl, kill_gone s _ this _ _ x _ _ _ ob
        (by assumption) (by assumption) (by assumption) h h1⟩
    | exact Or.inr ⟨rfl, kill_then_alloc_gone s _ _ this _ _ _ x _ _ _ _ _ ob
        (by assumption) (by assumption) (by assumption) (by assumption) h h1⟩

theorem releases_spec (s : State V) (this x : Nat) (h : any.releases s this x = true) :
    ∃ p pr ob, load s.handles this = some (some p) ∧ s.target p = some (pr, x, ob) ∧
      size_dec pr.refcount = 0 ∧ ob.status ≠ .deposit := by
  unfold any.releases at h
  rcases hh : load s.handles this with _ | _ | p
  · simp [hh] at h
  · simp [hh] at h
  · rcases ht : s.target p with _ | ⟨pr, o, ob⟩
    · simp [hh, ht] at h
    · simp only [hh, ht, Bool.and_eq_true, decide_eq_true_eq] at h
      obtain ⟨⟨h1, h2⟩, h3⟩ := h
      subst h1
      exact ⟨p, pr, ob, rfl, ht, h2, h3⟩

end destroy2

/-! ## Counting owners -/

section release
variable {V : Type}

end release

/-! ## Every operation keeps the reference-count invariant -/

section inv
variable {V : Type}

end inv

section inv2
variable {V : Type}

end inv2

section inv3
variable {V : Type}

end inv3

section inv4
variable {V : Type}

end inv4

/-! ## No operation shortens the variable store -/

section len
variable {V : Type}

end len

section len2
variable {V : Type}

end len2

/-! ## The reference-count invariant in every reachable store -/

section reachable
variable {V : Type}

end reachable

/-! ## Steps that keep every proxy around an instance of its own -/

section objinv
variable {V : Type}

end objinv

section objinv2
variable {V : Type}

end objinv2

/-! ## Calls on live variables have defined behaviour -/

section progress
variable {V : Type}

end progress

section progress2
variable {V : Type}

end progress2

/-! ## The invariants in every reachable store -/

section reachable2
variable {V : Type}

end reachable2

/-! ## When `assign` works in place -/

section inplace
variable {V : Type}

theorem assign_flag_unused (s : State V) (this obj : Nat)
    (h : ¬ (obj ≠ this ∧ ∃ q, load s.handles obj = some (some q) ∧
      load s.handles this ≠ some (some q))) :
    any.assign s this obj true = any.assign s this obj false := by
  rcases ha : load s.handles this with _ | a
  · simp [any.assign, ha]
  · rcases hb : load s.handles obj with _ | b
    · simp [any.assign, ha, hb]
    · by_cases hg : obj ≠ this ∧ b ≠ a
      · cases a with
        | none => cases b <;> simp [any.assign, ha, hb]
        | some p =>
          cases b with
          | none => simp [any.assign, ha, hb]
          | some q =>
            refine absurd ⟨hg.1, q, hb, ?_⟩ h
            rw [ha]
            intro e
            apply hg.2
            cases e
            rfl
      · simp [any.assign, ha, hb, hg]

theorem assign_reach_guard (s : State V) (this obj x : Nat) (raw : Bool)
    (ob ob1 : any_object V) (h : load s.objects x = some ob)
    (h1 : load (any.assign s this obj raw).2.objects x = some ob1) :
    (ob.status = .reachable → ob1.status = .reachable) ∨ any.releases s this x = true ∨
      (raw = true ∧ any.instance s this = some x ∧ obj ≠ this ∧
        ∃ q, load s.handles obj = some (some q) ∧ load s.handles this ≠ some (some q)) := by
  by_cases hc : obj ≠ this ∧ ∃ q, load s.handles obj = some (some q) ∧
      load s.handles this ≠ some (some q)
  · rcases assign_reach s this obj x raw ob ob1 h h1 with r | r | ⟨r1, r2⟩
    · exact Or.inl r
    · exact Or.inr (Or.inl r)
    · exact Or.inr (Or.inr ⟨r1, r2, hc.1, hc.2⟩)
  · have he := assign_flag_unused s this obj hc
    have h2 : load (any.assign s this obj false).2.objects x = some ob1 := by
      cases raw with
      | false => exact h1
      | true =>
        rw [he] at h1
        exact h1
    rcases assign_reach s this obj x false ob ob1 h h2 with r | r | ⟨r1, _⟩
    · exact Or.inl r
    · exact Or.inr (Or.inl r)
    · cases r1

theorem assign_gone_guard (s : State V) (this obj x : Nat) (raw : Bool) (ob : any_object V)
    (h : load s.objects x = some ob)
    (h1 : load (any.assign s this obj raw).2.objects x = none) :
    any.releases s this x = true ∨
      (raw = true ∧ any.instance s this = some x ∧ obj ≠ this ∧
        ∃ q, load s.handles obj = some (some q) ∧ load s.handles this ≠ some (some q)) := by
  by_cases hc : obj ≠ this ∧ ∃ q, load s.handles obj = some (some q) ∧
      load s.handles this ≠ some (some q)
  · rcases assign_gone s this obj x raw ob h h1 with r | ⟨r1, r2⟩
    · exact Or.inl r
    · exact Or.inr ⟨r1, r2, hc.1, hc.2⟩
  · have he := assign_flag_unused s this obj hc
    have h2 : load (any.assign s this obj false).2.objects x = none := by
      cases raw with
      | false => exact h1
      | true =>
        rw [he] at h1
        exact h1
    rcases assign_gone s this obj x false ob h h2 with r | ⟨r1, _⟩
    · exact Or.inl r
    · cases r1

theorem instance_target (s : State V) (this x : Nat) (ob : any_object V)
    (hi : any.instance s this = some x) (h : load s.objects x = some ob) :
    ∃ p pr, load s.handles this = some (some p) ∧ s.target p = some (pr, x, ob) := by
  unfold any.instance at hi
  rcases hh : load s.handles this with _ | _ | p
  · simp [hh] at hi
  · simp [hh] at hi
  · rcases hp : load s.proxies p with _ | pr
    · simp [hh, hp] at hi
    · simp only [hh, hp] at hi
      exact ⟨p, pr, rfl, by simp [State.target, hp, hi, h]⟩

theorem assign_in_place_state (s : State V) (this obj p q x : Nat) (pr : proxy)
    (ob : any_object V) (ha : load s.handles this = some (some p))
    (ho : load s.handles obj = some (some q)) (hoa : obj ≠ this) (hqp : q ≠ p)
    (hp : s.target p = some (pr, x, ob))
    (hn : ¬ ∃ qr o2 ob2, s.target q = some (qr, o2, ob2) ∧ ob.authority = .normal ∧
      ob2.authority = .normal) :
    (any.assign s this obj true).2 = s := by
  by_cases h1 : ob.authority = .normal
  · rcases htq : s.target q with _ | ⟨qr, o2, ob2⟩
    · simp [any.assign, ha, ho, hoa, hqp, hp, h1, htq]
    · have h2 : ob2.authority ≠ .normal := fun e => hn ⟨qr, o2, ob2, htq, h1, e⟩
      rw [assign_raw_locked s this obj p q x o2 pr qr ob ob2 ha ho hqp hp htq (Or.inr h2)]
  · simp [any.assign, ha, ho, hoa, hqp, hp, h1]

theorem assign_value_in_place_state (s : State V) (this T p x : Nat) (dat : V) (pr : proxy)
    (ob : any_object V) (ha : load s.handles this = some (some p))
    (hp : s.target p = some (pr, x, ob)) (hn : ob.authority ≠ .normal) :
    (any.assign_value s this T dat true).2 = s := by
  simp [any.assign_value, ha, hp, hn]

theorem assign_reach_exact (s : State V) (this obj x : Nat) (raw : Bool)
    (ob ob1 : any_object V) (h : load s.objects x = some ob)
    (h1 : load (any.assign s this obj raw).2.objects x = some ob1) :
    (ob.status = .reachable → ob1.status = .reachable) ∨ any.releases s this x = true ∨
      (raw = true ∧ any.instance s this = some x ∧ obj ≠ this ∧ ob.authority = .normal ∧
        ∃ q qr o2 ob2, load s.handles obj = some (some q) ∧
          load s.handles this ≠ some (some q) ∧ s.target q = some (qr, o2, ob2) ∧
          ob2.authority = .normal) := by
  rcases assign_reach_guard s this obj x raw ob ob1 h h1 with r | r | ⟨r1, r2, r3, q, hq1, hq2⟩
  · exact Or.inl r
  · exact Or.inr (Or.inl r)
  · subst r1
    obtain ⟨p, pr, ha, htp⟩ := instance_target s this x ob r2 h
    have hqp : q ≠ p := fun e => hq2 (by rw [ha, e])
    by_cases hn : ∃ qr o2 ob2, s.target q = some (qr, o2, ob2) ∧ ob.authority = .normal ∧
        ob2.authority = .normal
    · obtain ⟨qr, o2, ob2, htq, a1, a2⟩ := hn
      exact Or.inr (Or.inr ⟨rfl, r2, r3, a1, q, qr, o2, ob2, hq1, hq2, htq, a2⟩)
    · rw [assign_in_place_state s this obj p q x pr ob ha hq1 r3 hqp htp hn, h] at h1
      cases h1
      exact Or.inl id

theorem assign_gone_exact (s : State V) (this obj x : Nat) (raw : Bool) (ob : any_object V)
    (h : load s.objects x = some ob)
    (h1 : load (any.assign s this obj raw).2.objects x = none) :
    any.releases s this x = true ∨
      (raw = true ∧ any.instance s this = some x ∧ obj ≠ this ∧ ob.authority = .normal ∧
        ∃ q qr o2 ob2, load s.handles obj = some (some q) ∧
          load s.handles this ≠ some (some q) ∧ s.target q = some (qr, o2, ob2) ∧
          ob2.authority = .normal) := by
  rcases assign_gone_guard s this obj x raw ob h h1 with r | ⟨r1, r2, r3, q, hq1, hq2⟩
  · exact Or.inl r
  · subst r1
    obtain ⟨p, pr, ha, htp⟩ := instance_target s this x ob r2 h
    have hqp : q ≠ p := fun e => hq2 (by rw [ha, e])
    by_cases hn : ∃ qr o2 ob2, s.target q = some (qr, o2, ob2) ∧ ob.authority = .normal ∧
        ob2.authority = .normal
    · obtain ⟨qr, o2, ob2, htq, a1, a2⟩ := hn
      exact Or.inr ⟨rfl, r2, r3, a1, q, qr, o2, ob2, hq1, hq2, htq, a2⟩
    · rw [assign_in_place_state s this obj p q x pr ob ha hq1 r3 hqp htp hn, h] at h1
      cases h1

theorem assign_value_reach_exact (s : State V) (this T x : Nat) (dat : V) (raw : Bool)
    (ob ob1 : any_object V) (h : load s.objects x = some ob)
    (h1 : load (any.assign_value s this T dat raw).2.objects x = some ob1) :
    (ob.status = .reachable → ob1.status = .reachable) ∨ any.releases s this x = true ∨
      (raw = true ∧ any.instance s this = some x ∧ ob.authority = .normal) := by
  rcases assign_value_reach s this T x dat raw ob ob1 h h1 with r | r | ⟨r1, r2⟩
  · exact Or.inl r
  · exact Or.inr (Or.inl r)
  · subst r1
    obtain ⟨p, pr, ha, htp⟩ := instance_target s this x ob r2 h
    by_cases hn : ob.authority = .normal
    · exact Or.inr (Or.inr ⟨rfl, r2, hn⟩)
    · rw [assign_value_in_place_state s this T p x dat pr ob ha htp hn, h] at h1
      cases h1
      exact Or.inl id

theorem assign_value_gone_exact (s : State V) (this T x : Nat) (dat : V) (raw : Bool)
    (ob : any_object V) (h : load s.objects x = some ob)
    (h1 : load (any.assign_value s this T dat raw).2.objects x = none) :
    any.releases s this x = true ∨
      (raw = true ∧ any.instance s this = some x ∧ ob.authority = .normal) := by
  rcases assign_value_gone s this T x dat raw ob h h1 with r | ⟨r1, r2⟩
  · exact Or.inl r
  · subst r1
    obtain ⟨p, pr, ha, htp⟩ := instance_target s this x ob r2 h
    by_cases hn : ob.authority = .normal
    · exact Or.inr ⟨rfl, r2, hn⟩
    · rw [assign_value_in_place_state s this T p x dat pr ob ha htp hn, h] at h1
      cases h1

end inplace

/-! ## Claims -/

section claims

variable {V : Type}

/-- C1 (copy-on-write): when two distinct variables `a` and `b` share one proxy (whose count
covers both) around an instance of type `T` that is not constant, `a.val<T>(false)` succeeds,
and after writing any `w` through the reference it returns, `b.const_val<T>()` is still the
old payload while `a.const_val<T>()` is `w`. -/
theorem C1_copy_on_write (s : State V) (a b p o T : Nat) (pr : proxy) (ob : any_object V) (w : V)
    (hab : a ≠ b)
    (ha : load s.handles a = some (some p)) (hb : load s.handles b = some (some p))
    (hp : load s.proxies p = some pr) (hd : pr.data = some o)
    (ho : load s.objects o = some ob) (hT : ob.type = T)
    (hauth : ob.authority ≠ .constant)
    (hrc : 2 ≤ pr.refcount) (hmax : pr.refcount < size_max) :
    ∃ r s1 s2, any.val s a T false = (.ok r, s1) ∧ any.write s1 r w = (.ok (), s2) ∧
      any.const_val s2 b T = .ok ob.mDat ∧ any.const_val s2 a T = .ok w := by
  have hpf : p ≠ fresh s.proxies := ne_fresh_of_load _ _ _ hp
  have hof : o ≠ fresh s.objects := ne_fresh_of_load _ _ _ ho
  have hdec := (size_dec_pos pr.refcount hrc hmax).2
  have hba : b ≠ a := fun e => hab e.symm
  subst hT
  refine ⟨fresh s.objects, (any.val s a ob.type false).2,
    (any.write (any.val s a ob.type false).2 (fresh s.objects) w).2, ?_, ?_, ?_, ?_⟩ <;>
  simp [any.val, any.type, any.clone, any.recycle, any.write, any.const_val, State.target,
    any_object.duplicate, proxy.alloc, ha, hb, hp, hd, ho, hauth, load_put, hpf, hof, hdec,
    hba, Ne.symm hpf, Ne.symm hof]

/-- C1, scenario S1: `a = make<int>(7); b = a; b.val<int>() = 9` leaves `a` at 7 and `b` at 9. -/
theorem C1_copy_on_write_witness :
    ∃ r s1 s2,
      any.val (any.ctor_copy (any.make ({} : State Int) 0 7).2 0).2 1 0 false = (.ok r, s1) ∧
      any.write s1 r 9 = (.ok (), s2) ∧
      any.const_val s2 0 0 = .ok 7 ∧ any.const_val s2 1 0 = .ok 9 :=
  C1_copy_on_write (any.ctor_copy (any.make ({} : State Int) 0 7).2 0).2 1 0 0 0 0
    { refcount := 2, data := some 0 } { type := 0, mDat := 7 } 9
    (by decide) (by decide) (by decide) (by decide) (by decide) (by decide) (by decide)
    (by decide) (by decide) (by decide)

/-- C2 refuted as stated: with `a = make_constant<int>(5)` and an empty `o`,
`a.assign(o, true)` and `a.swap(o, true)` both return normally and leave `a` empty;
the assignment also releases the constant instance. -/
theorem C2_counterexample :
    any.is_constant (any.ctor_default (any.make_constant ({} : State Int) 0 5).2).2 0 = .ok true ∧
    load (any.ctor_default (any.make_constant ({} : State Int) 0 5).2).2.handles 1 = some none ∧
    (any.assign (any.ctor_default (any.make_constant ({} : State Int) 0 5).2).2 0 1 true).1
      = .ok () ∧
    load (any.assign (any.ctor_default (any.make_constant ({} : State Int) 0 5).2).2
      0 1 true).2.handles 0 = some none ∧
    load (any.assign (any.ctor_default (any.make_constant ({} : State Int) 0 5).2).2
      0 1 true).2.objects 0 = none ∧
    (any.swap (any.ctor_default (any.make_constant ({} : State Int) 0 5).2).2 0 1 true).1
      = .ok () ∧
    load (any.swap (any.ctor_default (any.make_constant ({} : State Int) 0 5).2).2
      0 1 true).2.handles 0 = some none := by
  decide

/-- C2 (amended): when `a` owns a constant instance and `o` is a non-empty variable, each of
`a.val<T>(true)`, `a.assign<T>(v, true)` and `a.swap(o, true)` throws, and so does
`a.assign(o, true)` when `o` owns another proxy; after each of them the whole store,
hence `a` with its proxy and instance, is what it was. -/
theorem C2_constant_locked (s : State V) (a o p q oa T : Nat) (v : V) (pr : proxy)
    (ob : any_object V)
    (ha : load s.handles a = some (some p)) (ho : load s.handles o = some (some q))
    (hp : s.target p = some (pr, oa, ob)) (hc : ob.authority = .constant) :
    any.val s a T true = (.throw (.error (if T = ob.type then "E000K" else "E0006")), s) ∧
    any.assign_value s a T v true = (.throw (.error "E000J"), s) ∧
    any.swap s a o true
      = (.throw (.lang_error "Swap two variable which has limits of authority."), s) ∧
    (q ≠ p → any.assign s a o true = (.throw (.error "E000J"), s)) := by
  refine ⟨?_, ?_, ?_, ?_⟩
  · by_cases hT : T = ob.type <;> simp [any.val, any.type, ha, hp, hc, hT]
  · simp [any.assign_value, ha, hp, hc]
  · simp [any.swap, ha, ho, hp, hc]
  · intro hqp
    have hoa : o ≠ a := by
      intro e
      rw [e, ha] at ho
      exact hqp (by injection ho with h1; injection h1 with h2; exact h2.symm)
    simp [any.assign, ha, ho, hp, hc, hoa, hqp]

/-- C2 at `a = make_constant<int>(5)`, `o = make<int>(6)`: every raw mutating path throws
and the store is unchanged. -/
theorem C2_constant_locked_witness :
    any.val (any.make (any.make_constant ({} : State Int) 0 5).2 0 6).2 0 0 true
      = (.throw (.error (if (0 : Nat) = (0 : Nat) then "E000K" else "E0006")),
          (any.make (any.make_constant ({} : State Int) 0 5).2 0 6).2) ∧
    any.assign_value (any.make (any.make_constant ({} : State Int) 0 5).2 0 6).2 0 0 8 true
      = (.throw (.error "E000J"), (any.make (any.make_constant ({} : State Int) 0 5).2 0 6).2) ∧
    any.swap (any.make (any.make_constant ({} : State Int) 0 5).2 0 6).2 0 1 true
      = (.throw (.lang_error "Swap two variable which has limits of authority."),
          (any.make (any.make_constant ({} : State Int) 0 5).2 0 6).2) ∧
    ((1 : Nat) ≠ 0 → any.assign (any.make (any.make_constant ({} : State Int) 0 5).2 0 6).2 0 1 true
      = (.throw (.error "E000J"), (any.make (any.make_constant ({} : State Int) 0 5).2 0 6).2)) :=
  C2_constant_locked (any.make (any.make_constant ({} : State Int) 0 5).2 0 6).2 0 1 0 1 0 0 8
    { refcount := 1, data := some 0 } { authority := .constant, type := 0, mDat := 5 }
    (by decide) (by decide) (by decide) rfl

/-- C3 refuted as stated: on `a = make_constant<int>(5)`, `a.try_move()` succeeds and
lowers the authority of the instance from `constant` to `normal`. -/
theorem C3_counterexample :
    (load (any.make_constant ({} : State Int) 0 5).2.objects 0).map (·.authority)
      = some .constant ∧
    (any.try_move (any.make_constant ({} : State Int) 0 5).2 0).1 = .ok () ∧
    (load (any.try_move (any.make_constant ({} : State Int) 0 5).2 0).2.objects 0).map
      (·.authority) = some .normal ∧
    any.is_constant (any.try_move (any.make_constant ({} : State Int) 0 5).2 0).2 0
      = .ok false := by
  decide

/-- C3 (amended): under `protect`, `constant`, `mark_as_rvalue`, `share_object`, `swap`,
`clone`, `val`, copy construction, copy assignment and destruction, every address that holds
an instance before and after the call holds one whose authority is at least what it was
(so `constant` stays `constant`).  The same holds under both forms of `assign`, except at an
address whose instance the call destroyed by letting go of the last reference, where a new
instance may now live.  `try_move` leaves each authority as it was or resets it to `normal`. -/
theorem C3_authority_monotone (s : State V) (this obj T : Nat) (raw value : Bool) (v : V) :
    AuthMono s.objects (any.protect s this).2.objects ∧
    AuthMono s.objects (any.constant s this).2.objects ∧
    AuthMono s.objects (any.mark_as_rvalue s this value).2.objects ∧
    AuthMono s.objects (any.share_object s this).2.objects ∧
    AuthMono s.objects (any.swap s this obj raw).2.objects ∧
    AuthMono s.objects (any.clone s this).2.objects ∧
    AuthMono s.objects (any.val s this T raw).2.objects ∧
    AuthMono s.objects (any.ctor_copy s this).2.objects ∧
    AuthMono s.objects (any.operator_assign s this obj).2.objects ∧
    AuthMono s.objects (any.dtor s this).2.objects ∧
    (∀ x ob ob1, load s.objects x = some ob →
      load (any.assign s this obj raw).2.objects x = some ob1 →
      ob.authority.rank ≤ ob1.authority.rank ∨ any.releases s this x = true) ∧
    (∀ x ob ob1, load s.objects x = some ob →
      load (any.assign_value s this T v raw).2.objects x = some ob1 →
      ob.authority.rank ≤ ob1.authority.rank ∨ any.releases s this x = true) ∧
    (∀ x ob ob1, load s.objects x = some ob →
      load (any.try_move s this).2.objects x = some ob1 →
      ob1.authority = ob.authority ∨ ob1.authority = .normal) := by
  refine ⟨protect_authMono s this, constant_authMono s this,
    mark_as_rvalue_authMono s this value, share_object_authMono s this, ?_,
    clone_authMono s this, val_authMono s this T raw, ?_,
    authMono_of_shrunk (operator_assign_shrunk s this obj),
    authMono_of_shrunk (dtor_shrunk s this),
    fun x ob ob1 => assign_authority s this obj x raw ob ob1,
    fun x ob ob1 => assign_value_authority s this T x v raw ob ob1,
    fun x ob ob1 => try_move_authority s this x ob ob1⟩
  · rw [swap_objects]
    exact authMono_refl _
  · rw [ctor_copy_objects]
    exact authMono_refl _

/-- C3 on the sample store: `a.constant()` takes the instance of `a` from `protect` up to
`constant`, and a later `a.assign(b)` destroys that instance (the exception for `assign`). -/
theorem C3_authority_monotone_witness :
    object_authority.protect.rank ≤ object_authority.constant.rank ∧
    (object_authority.constant.rank ≤ object_authority.normal.rank ∨
      any.releases (any.constant sample_store 0).2 0 0 = true) :=
  ⟨(C3_authority_monotone sample_store 0 2 0 false false 0).2.1 0
      { authority := .protect, type := 0, mDat := 3 }
      { authority := .constant, type := 0, mDat := 3 } (by decide) (by decide),
    (C3_authority_monotone (any.constant sample_store 0).2 0 2 0 false false 0).2.2.2.2.2.2.2.2.2.2.1
      0 { authority := .constant, type := 0, mDat := 3 } { type := 0, mDat := 4 }
      (by decide) (by decide)⟩

/-- C4: on an empty variable the typed accessors `val<T>` (both overloads) and
`const_val<T>` throw `"E0006"`, for every `T` and `raw`: the type test against
`typeid(void)` comes first, so the null test that would throw `"E0005"` is never reached. -/
theorem C4_empty_access_throws_E0006 (s : State V) (this T : Nat) (raw : Bool)
    (h : load s.handles this = some none) :
    any.val s this T raw = (.throw (.error "E0006"), s) ∧
    any.val_const s this T raw = .throw (.error "E0006") ∧
    any.const_val s this T = .throw (.error "E0006") := by
  simp [any.val, any.val_const, any.const_val, any.type, h]

/-- C4 at `any a; a.val<int>()`: the default-constructed variable throws `"E0006"`. -/
theorem C4_empty_access_throws_E0006_witness :
    any.val (any.ctor_default ({} : State Int)).2 0 0 false
      = (.throw (.error "E0006"), (any.ctor_default ({} : State Int)).2) ∧
    any.val_const (any.ctor_default ({} : State Int)).2 0 0 false = .throw (.error "E0006") ∧
    any.const_val (any.ctor_default ({} : State Int)).2 0 0 = .throw (.error "E0006") :=
  C4_empty_access_throws_E0006 (any.ctor_default ({} : State Int)).2 0 0 false (by decide)

/-- C5 (strong guarantee): whenever `val<T>`, `assign` (of a variable or of a value), `swap`,
`protect`, `share_object` or `get_ext` ends by throwing, the store after the call (every
variable's proxy pointer, every proxy's count and instance pointer, every instance and the
set of live instances) is the store before it.  The const accessors `const_val<T>` and
`val<T>() const` contain no write at all. -/
theorem C5_strong_guarantee (tr : Traits V) (s s1 : State V) (this obj T : Nat) (raw : Bool)
    (v : V) (e : Exception) :
    (any.val s this T raw = (.throw e, s1) → s1 = s) ∧
    (any.assign s this obj raw = (.throw e, s1) → s1 = s) ∧
    (any.assign_value s this T v raw = (.throw e, s1) → s1 = s) ∧
    (any.swap s this obj raw = (.throw e, s1) → s1 = s) ∧
    (any.protect s this = (.throw e, s1) → s1 = s) ∧
    (any.share_object s this = (.throw e, s1) → s1 = s) ∧
    (any.get_ext tr s this = (.throw e, s1) → s1 = s) :=
  ⟨val_throw s s1 this T raw e, assign_throw s s1 this obj raw e,
    assign_value_throw s s1 this T v raw e, swap_throw s s1 this obj raw e,
    protect_throw s s1 this e, share_object_throw s s1 this e, get_ext_throw tr s s1 this e⟩

/-- C5 on the store of `a = make_protect<int>(3); any n; b = make<int>(4)`: each of the seven
calls throws there, and each leaves that store unchanged. -/
theorem C5_strong_guarantee_witness :
    (any.val sample_store 1 0 false).2 = sample_store ∧
    (any.assign sample_store 0 2 true).2 = sample_store ∧
    (any.assign_value sample_store 0 0 9 true).2 = sample_store ∧
    (any.swap sample_store 0 2 true).2 = sample_store ∧
    (any.protect sample_store 0).2 = sample_store ∧
    (any.share_object sample_store 1).2 = sample_store ∧
    (any.get_ext sample_traits sample_store 1).2 = sample_store :=
  ⟨(C5_strong_guarantee sample_traits sample_store _ 1 0 0 false 0 (.error "E0006")).1
      (by decide),
    (C5_strong_guarantee sample_traits sample_store _ 0 2 0 true 0 (.error "E000J")).2.1
      (by decide),
    (C5_strong_guarantee sample_traits sample_store _ 0 0 0 true 9 (.error "E000J")).2.2.1
      (by decide),
    (C5_strong_guarantee sample_traits sample_store _ 0 2 0 true 0
      (.lang_error "Swap two variable which has limits of authority.")).2.2.2.1 (by decide),
    (C5_strong_guarantee sample_traits sample_store _ 0 0 0 true 0
      (.internal_error "Downgrade object authority.")).2.2.2.2.1 (by decide),
    (C5_strong_guarantee sample_traits sample_store _ 1 0 0 true 0
      (.internal_error "Share null object from variable.")).2.2.2.2.2.1 (by decide),
    (C5_strong_guarantee sample_traits sample_store _ 1 0 0 true 0
      (.runtime_error "Target type does not support extensions.")).2.2.2.2.2.2 (by decide)⟩

/-- C7 refuted as stated: `a = make<int>(1); h = a.share_object(); w = any(h)` exports the
instance both ways and puts it under two proxies; releasing `w` clears the deposit mark,
releasing `a` then destroys the instance, and `h.replace` meets a dangling pointer. -/
theorem C7_counterexample :
    (any.share_object (any.make ({} : State Int) 0 1).2 0).1 = .ok 0 ∧
    (any.ctor_holder (any.share_object (any.make ({} : State Int) 0 1).2 0).2
      { object := some 0 }).1 = .ok 1 ∧
    (load (any.dtor (any.ctor_holder (any.share_object (any.make ({} : State Int) 0 1).2 0).2
      { object := some 0 }).2 1).2.objects 0).map (·.status) = some .normal ∧
    (any.dtor (any.dtor (any.ctor_holder (any.share_object
      (any.make ({} : State Int) 0 1).2 0).2 { object := some 0 }).2 1).2 0).1 = .ok () ∧
    load (any.dtor (any.dtor (any.ctor_holder (any.share_object
      (any.make ({} : State Int) 0 1).2 0).2 { object := some 0 }).2 1).2 0).2.objects 0 = none ∧
    (any_holder.replace (any.dtor (any.dtor (any.ctor_holder (any.share_object
      (any.make ({} : State Int) 0 1).2 0).2 { object := some 0 }).2 1).2 0).2
      { object := some 0 } (some 5)).1 = .undefined := by
  decide

/-- C7 (amended): let the instance at `o` be on deposit and held by the proxy of `a`, whose
count is 1.  Destroying `a` succeeds and releases the proxy, the instance stays alive with
status `normal`, and `h.replace(n)` on a holder of `o` then destroys the instance and makes
the holder point to `n`.  Both `share_object` and the constructor from a holder leave the
instance they export on deposit. -/
theorem C7_deposit_lifecycle (s : State V) (a p o : Nat) (pr : proxy) (ob : any_object V)
    (n : Option Nat)
    (ha : load s.handles a = some (some p)) (ht : s.target p = some (pr, o, ob))
    (hrc : pr.refcount = 1) (hs : ob.status = .deposit) :
    (any.dtor s a).1 = .ok () ∧
    load (any.dtor s a).2.handles a = none ∧
    load (any.dtor s a).2.proxies p = none ∧
    load (any.dtor s a).2.objects o = some { ob with status := .normal } ∧
    (any_holder.replace (any.dtor s a).2 { object := some o } n).1 = .ok { object := n } ∧
    load (any_holder.replace (any.dtor s a).2 { object := some o } n).2.objects o = none ∧
    (any.share_object s a).1 = .ok o ∧
    load (any.share_object s a).2.objects o = some { ob with status := .deposit } ∧
    (∃ w, (any.ctor_holder s { object := some o }).1 = .ok w ∧
      load (any.ctor_holder s { object := some o }).2.objects o
        = some { ob with status := .deposit }) := by
  obtain ⟨hp, hd, ho⟩ := target_some s p o pr ob ht
  have hz : size_dec pr.refcount = 0 := by
    rw [hrc]
    decide
  have he : any.dtor s a = (.ok (),
      { objects := put s.objects o (some { ob with status := .normal })
        proxies := put (put s.proxies p (some { pr with refcount := 0 })) p none
        handles := put (put s.handles a (some none)) a none }) := by
    rw [any.dtor, recycle_last s a p o pr ob ha ht hz]
    simp [hs]
  rw [he]
  refine ⟨rfl, ?_, ?_, ?_, ?_, ?_, ?_, ?_, ?_⟩
  · simp [load_put]
  · simp [load_put]
  · simp [load_put]
  · simp [any_holder.replace, load_put, any_object.kill]
  · simp [any_holder.replace, load_put, any_object.kill]
  · simp [any.share_object, ha, ht]
  · simp [any.share_object, ha, ht, load_put, hs]
  · refine ⟨fresh s.handles, ?_, ?_⟩ <;>
      simp [any.ctor_holder, proxy.alloc, any.ctor_proxy, ho, load_put, hs]

/-- C7, scenario S4: `a = make<int>(1); h = a.share_object();` then `a` is released and
`h.replace(n)` follows. -/
theorem C7_deposit_lifecycle_witness :
    (load (any.dtor (any.share_object (any.make ({} : State Int) 0 1).2 0).2 0).2.objects 0)
      = some { type := 0, mDat := 1 } ∧
    load (any_holder.replace (any.dtor (any.share_object (any.make ({} : State Int) 0 1).2 0).2
      0).2 { object := some 0 } (some 7)).2.objects 0 = none :=
  have h := C7_deposit_lifecycle (any.share_object (any.make ({} : State Int) 0 1).2 0).2 0 0 0
    { refcount := 1, data := some 0 } { status := .deposit, type := 0, mDat := 1 } (some 7)
    (by decide) (by decide) rfl rfl
  ⟨h.2.2.2.1, h.2.2.2.2.2.1⟩

/-- C8 (swap contract): for live variables `a` and `b`.  With `raw` set and both non-empty,
`a.swap(b, true)` throws the authority error and changes nothing when either instance's
authority is not `normal`; otherwise it succeeds and exchanges the instance pointers of the
two proxies, every variable, instance and reference count staying as it was.  In every other
case (`raw` unset, or either side empty) it succeeds and exchanges the proxy pointers of the
two variables, touching no proxy and no instance. -/
theorem C8_swap (s : State V) (a b : Nat) (ma mb : Option Nat)
    (ha : load s.handles a = some ma) (hb : load s.handles b = some mb) :
    (∀ p q pr qr o1 o2 ob1 ob2, ma = some p → mb = some q →
      s.target p = some (pr, o1, ob1) → s.target q = some (qr, o2, ob2) →
      ((ob1.authority ≠ .normal ∨ ob2.authority ≠ .normal) →
        any.swap s a b true
          = (.throw (.lang_error "Swap two variable which has limits of authority."), s)) ∧
      ((ob1.authority = .normal ∧ ob2.authority = .normal) →
        (any.swap s a b true).1 = .ok () ∧
        (any.swap s a b true).2.handles = s.handles ∧
        (any.swap s a b true).2.objects = s.objects ∧
        (any.swap s a b true).2.target p
          = some ({ refcount := pr.refcount, data := some o2 }, o2, ob2) ∧
        (any.swap s a b true).2.target q
          = some ({ refcount := qr.refcount, data := some o1 }, o1, ob1) ∧
        (∀ r, r ≠ p → r ≠ q →
          load (any.swap s a b true).2.proxies r = load s.proxies r))) ∧
    (∀ raw, (raw = false ∨ ma = none ∨ mb = none) →
      (any.swap s a b raw).1 = .ok () ∧
      (any.swap s a b raw).2.objects = s.objects ∧
      (any.swap s a b raw).2.proxies = s.proxies ∧
      load (any.swap s a b raw).2.handles a = some mb ∧
      load (any.swap s a b raw).2.handles b = some ma ∧
      (∀ c, c ≠ a → c ≠ b → load (any.swap s a b raw).2.handles c = load s.handles c)) := by
  constructor
  · intro p q pr qr o1 o2 ob1 ob2 hma hmb hp hq
    subst hma hmb
    obtain ⟨hp1, hp2, hp3⟩ := target_some s p o1 pr ob1 hp
    obtain ⟨hq1, hq2, hq3⟩ := target_some s q o2 qr ob2 hq
    constructor
    · intro hor
      by_cases h1 : ob1.authority = .normal
      · have h2 : ob2.authority ≠ .normal := by
          rcases hor with h | h
          · exact absurd h1 h
          · exact h
        simp [any.swap, ha, hb, hp, hq, h1, h2]
      · simp [any.swap, ha, hb, hp, h1]
    · rintro ⟨h1, h2⟩
      have he : any.swap s a b true = (.ok (), { s with
          proxies := put (put s.proxies p (some { pr with data := qr.data })) q
            (some { qr with data := pr.data }) }) := by
        simp [any.swap, ha, hb, hp, hq, h1, h2]
      rw [he]
      refine ⟨rfl, rfl, rfl, ?_, ?_, ?_⟩
      · by_cases hpq : p = q
        · subst hpq
          rw [hp1] at hq1
          cases hq1
          rw [hp2] at hq2
          cases hq2
          rw [hp3] at hq3
          cases hq3
          simp [State.target, load_put, hp2, hp3]
        · simp [State.target, load_put, hpq, hq2, hq3]
      · simp [State.target, load_put, hp2, hp3]
      · intro r hrp hrq
        simp [load_put, hrp, hrq]
  · intro raw hcase
    have he : any.swap s a b raw = (.ok (), { s with
        handles := put (put s.handles a (some mb)) b (some ma) }) := by
      rcases hcase with h | h | h
      · subst h
        cases ma <;> cases mb <;> simp [any.swap, ha, hb]
      · subst h
        cases mb <;> cases raw <;> simp [any.swap, ha, hb]
      · subst h
        cases ma <;> cases raw <;> simp [any.swap, ha, hb]
    rw [he]
    refine ⟨rfl, rfl, rfl, ?_, ?_, ?_⟩
    · by_cases hab : a = b
      · subst hab
        rw [ha] at hb
        cases hb
        simp [load_put]
      · simp [load_put, hab]
    · simp [load_put]
    · intro c hca hcb
      simp [load_put, hca, hcb, ha]

/-- C8, scenario S5: with `a = make_protect<int>(3)` and `b = make<int>(4)` the raw swap
throws and changes nothing, and the plain swap leaves `a` holding 4 and `b` holding 3. -/
theorem C8_swap_witness :
    any.swap sample_store 0 2 true
      = (.throw (.lang_error "Swap two variable which has limits of authority."),
          sample_store) ∧
    load (any.swap sample_store 0 2 false).2.handles 0 = some (some 1) ∧
    load (any.swap sample_store 0 2 false).2.handles 2 = some (some 0) ∧
    any.const_val (any.swap sample_store 0 2 false).2 0 0 = .ok 4 ∧
    any.const_val (any.swap sample_store 0 2 false).2 2 0 = .ok 3 :=
  ⟨((C8_swap sample_store 0 2 (some 0) (some 1) (by decide) (by decide)).1 0 1
      { refcount := 1, data := some 0 } { refcount := 1, data := some 1 } 0 1
      { authority := .protect, type := 0, mDat := 3 } { type := 0, mDat := 4 }
      rfl rfl (by decide) (by decide)).1 (Or.inl (by decide)),
    ((C8_swap sample_store 0 2 (some 0) (some 1) (by decide) (by decide)).2 false
      (Or.inl rfl)).2.2.2.1,
    ((C8_swap sample_store 0 2 (some 0) (some 1) (by decide) (by decide)).2 false
      (Or.inl rfl)).2.2.2.2.1,
    by decide, by decide⟩

/-- C10: on a variable that owns an instance, `protect()` throws "Downgrade object authority."
and changes nothing when the authority is `protect` or `constant`, and otherwise raises the
authority from `normal` to `protect`; afterwards `is_protect()` tells whether the authority
is not `normal` and `is_constant()` whether it is `constant`. -/
theorem C10_protect (s : State V) (this p o : Nat) (pr : proxy) (ob : any_object V)
    (hh : load s.handles this = some (some p)) (ht : s.target p = some (pr, o, ob)) :
    (ob.authority ≠ .normal →
      any.protect s this = (.throw (.internal_error "Downgrade object authority."), s)) ∧
    (ob.authority = .normal →
      (any.protect s this).1 = .ok () ∧
      (any.protect s this).2.target p = some (pr, o, { ob with authority := .protect })) ∧
    (∃ ob1, (any.protect s this).2.target p = some (pr, o, ob1) ∧
      any.is_protect (any.protect s this).2 this = .ok (decide (ob1.authority ≠ .normal)) ∧
      any.is_constant (any.protect s this).2 this = .ok (decide (ob1.authority = .constant)) ∧
      ob1.authority ≠ .normal) := by
  obtain ⟨hp, hd, ho⟩ := target_some s p o pr ob ht
  by_cases ha : ob.authority = .normal
  · have he : any.protect s this = (.ok (), { s with
        objects := put s.objects o (some { ob with authority := .protect }) }) := by
      simp [any.protect, hh, ht, ha]
    have ht1 : (any.protect s this).2.target p = some (pr, o, { ob with authority := .protect }) := by
      rw [he]
      simp [State.target, hp, hd, load_put]
    have hh1 : load (any.protect s this).2.handles this = some (some p) := by
      rw [he]
      exact hh
    refine ⟨fun h => absurd ha h, fun _ => ⟨by rw [he], ht1⟩, _, ht1, ?_, ?_, ?_⟩ <;>
    simp [any.is_protect, any.is_constant, hh1, ht1]
  · have he : any.protect s this
        = (.throw (.internal_error "Downgrade object authority."), s) := by
      simp [any.protect, hh, ht, ha]
    refine ⟨fun _ => he, fun h => absurd h ha, ob, ?_, ?_, ?_, ha⟩ <;>
    simp [he, any.is_protect, any.is_constant, hh, ht]

/-- C10 at `a = make<int>(3)`: `protect()` succeeds and `a` is then protected, not constant. -/
theorem C10_protect_witness :
    (({ type := 0, mDat := 3 } : any_object Int).authority ≠ .normal →
      any.protect (any.make ({} : State Int) 0 3).2 0
        = (.throw (.internal_error "Downgrade object authority."),
            (any.make ({} : State Int) 0 3).2)) ∧
    (({ type := 0, mDat := 3 } : any_object Int).authority = .normal →
      (any.protect (any.make ({} : State Int) 0 3).2 0).1 = .ok () ∧
      (any.protect (any.make ({} : State Int) 0 3).2 0).2.target 0
        = some ({ refcount := 1, data := some 0 }, 0,
            { ({ type := 0, mDat := 3 } : any_object Int) with authority := .protect })) ∧
    (∃ ob1, (any.protect (any.make ({} : State Int) 0 3).2 0).2.target 0
        = some ({ refcount := 1, data := some 0 }, 0, ob1) ∧
      any.is_protect (any.protect (any.make ({} : State Int) 0 3).2 0).2 0
        = .ok (decide (ob1.authority ≠ .normal)) ∧
      any.is_constant (any.protect (any.make ({} : State Int) 0 3).2 0).2 0
        = .ok (decide (ob1.authority = .constant)) ∧
      ob1.authority ≠ .normal) :=
  C10_protect (any.make ({} : State Int) 0 3).2 0 0 0 { refcount := 1, data := some 0 }
    { type := 0, mDat := 3 } (by decide) (by decide)

/-- C11 (`try_move`): on a live variable.  When it owns a proxy of count 1 around an instance
of status `normal`, `try_move()` sets that instance's authority to `normal` and its status to
`recycle`, changes nothing else, and `is_rvalue()` is true afterwards.  When the variable is
empty, or the count is not 1, or the status is not `normal`, the store stays as it was. -/
theorem C11_try_move (s : State V) (this : Nat) (m : Option Nat)
    (hh : load s.handles this = some m) :
    (∀ p pr o ob, m = some p → s.target p = some (pr, o, ob) → pr.refcount = 1 →
      ob.status = .normal →
      any.try_move s this = (.ok (), { s with
        objects := put s.objects o (some { ob with authority := .normal, status := .recycle }) }) ∧
      (any.try_move s this).2.target p
        = some (pr, o, { ob with authority := .normal, status := .recycle }) ∧
      any.is_rvalue (any.try_move s this).2 this = .ok true) ∧
    (m = none → any.try_move s this = (.ok (), s)) ∧
    (∀ p pr, m = some p → load s.proxies p = some pr → pr.refcount ≠ 1 →
      any.try_move s this = (.ok (), s)) ∧
    (∀ p pr o ob, m = some p → s.target p = some (pr, o, ob) → ob.status ≠ .normal →
      any.try_move s this = (.ok (), s)) := by
  refine ⟨?_, ?_, ?_, ?_⟩
  · intro p pr o ob hm ht hrc hs
    subst hm
    obtain ⟨hp, hd, ho⟩ := target_some s p o pr ob ht
    have he : any.try_move s this = (.ok (), { s with
        objects := put s.objects o (some { ob with authority := .normal, status := .recycle }) }) := by
      simp [any.try_move, hh, hp, ht, hrc, hs]
    have ht1 : (any.try_move s this).2.target p
        = some (pr, o, { ob with authority := .normal, status := .recycle }) := by
      rw [he]
      simp [State.target, hp, hd, load_put]
    have hh1 : load (any.try_move s this).2.handles this = some (some p) := by
      rw [he]
      exact hh
    exact ⟨he, ht1, by simp [any.is_rvalue, hh1, ht1]⟩
  · intro hm
    subst hm
    simp [any.try_move, hh]
  · intro p pr hm hp hrc
    subst hm
    simp [any.try_move, hh, hp, hrc]
  · intro p pr o ob hm ht hs
    subst hm
    obtain ⟨hp, hd, ho⟩ := target_some s p o pr ob ht
    by_cases hrc : pr.refcount = 1 <;> simp [any.try_move, hh, hp, ht, hrc, hs]

/-- C11 on the sample store: `a` (count 1, status `normal`, protected) becomes an rvalue of
authority `normal`, and the empty `n` is left alone. -/
theorem C11_try_move_witness :
    (any.try_move sample_store 0).2.target 0
      = some ({ refcount := 1, data := some 0 }, 0,
          { status := .recycle, authority := .normal, type := 0, mDat := 3 }) ∧
    any.is_rvalue (any.try_move sample_store 0).2 0 = .ok true ∧
    any.try_move sample_store 1 = (.ok (), sample_store) :=
  ⟨((C11_try_move sample_store 0 (some 0) (by decide)).1 0 { refcount := 1, data := some 0 } 0
      { authority := .protect, type := 0, mDat := 3 } rfl (by decide) rfl rfl).2.1,
    ((C11_try_move sample_store 0 (some 0) (by decide)).1 0 { refcount := 1, data := some 0 } 0
      { authority := .protect, type := 0, mDat := 3 } rfl (by decide) rfl rfl).2.2,
    (C11_try_move sample_store 1 none (by decide)).2.1 rfl⟩

/-- C12 (`mark_as_rvalue`): on a live variable that owns an instance whose status is not
`deposit`, `mark_as_rvalue(flag)` sets the status to `recycle` when `flag` is set and to
`normal` otherwise, changes nothing else, and `is_rvalue()` then equals `flag`.  When the
status is `deposit`, or the variable is empty, the store stays as it was. -/
theorem C12_mark_as_rvalue (s : State V) (this : Nat) (m : Option Nat) (flag : Bool)
    (hh : load s.handles this = some m) :
    (∀ p pr o ob, m = some p → s.target p = some (pr, o, ob) → ob.status ≠ .deposit →
      any.mark_as_rvalue s this flag = (.ok (), { s with
        objects := put s.objects o (some { ob with status := if flag then .recycle else .normal }) }) ∧
      (any.mark_as_rvalue s this flag).2.target p
        = some (pr, o, { ob with status := if flag then .recycle else .normal }) ∧
      any.is_rvalue (any.mark_as_rvalue s this flag).2 this = .ok flag) ∧
    (∀ p pr o ob, m = some p → s.target p = some (pr, o, ob) → ob.status = .deposit →
      any.mark_as_rvalue s this flag = (.ok (), s)) ∧
    (m = none → any.mark_as_rvalue s this flag = (.ok (), s)) := by
  refine ⟨?_, ?_, ?_⟩
  · intro p pr o ob hm ht hs
    subst hm
    obtain ⟨hp, hd, ho⟩ := target_some s p o pr ob ht
    have he : any.mark_as_rvalue s this flag = (.ok (), { s with
        objects := put s.objects o (some { ob with status := if flag then .recycle else .normal }) }) := by
      simp [any.mark_as_rvalue, hh, ht, hs]
    have ht1 : (any.mark_as_rvalue s this flag).2.target p
        = some (pr, o, { ob with status := if flag then .recycle else .normal }) := by
      rw [he]
      simp [State.target, hp, hd, load_put]
    have hh1 : load (any.mark_as_rvalue s this flag).2.handles this = some (some p) := by
      rw [he]
      exact hh
    refine ⟨he, ht1, ?_⟩
    cases flag <;> simp [any.is_rvalue, hh1, ht1]
  · intro p pr o ob hm ht hs
    subst hm
    simp [any.mark_as_rvalue, hh, ht, hs]
  · intro hm
    subst hm
    simp [any.mark_as_rvalue, hh]

/-- C12 on the sample store: `a.mark_as_rvalue(true)` makes `a` an rvalue, and after
`a.share_object()` the mark can no longer be changed. -/
theorem C12_mark_as_rvalue_witness :
    any.is_rvalue (any.mark_as_rvalue sample_store 0 true).2 0 = .ok true ∧
    any.mark_as_rvalue (any.share_object sample_store 0).2 0 true
      = (.ok (), (any.share_object sample_store 0).2) :=
  ⟨((C12_mark_as_rvalue sample_store 0 (some 0) true (by decide)).1 0
      { refcount := 1, data := some 0 } 0 { authority := .protect, type := 0, mDat := 3 }
      rfl (by decide) (by decide)).2.2,
    (C12_mark_as_rvalue (any.share_object sample_store 0).2 0 (some 0) true (by decide)).2.1 0
      { refcount := 1, data := some 0 } 0
      { status := .deposit, authority := .protect, type := 0, mDat := 3 }
      rfl (by decide) rfl⟩

/-- C13 refuted as stated: on an instance that an external tracer marked `reachable`,
`mark_as_rvalue(false)` turns the status into `normal`, `mark_as_rvalue(true)` into
`recycle`, and `share_object()` into `deposit`. -/
theorem C13_counterexample :
    (load reachable_store.objects 0).map (·.status) = some .reachable ∧
    (load (any.mark_as_rvalue reachable_store 0 false).2.objects 0).map (·.status)
      = some .normal ∧
    (load (any.mark_as_rvalue reachable_store 0 true).2.objects 0).map (·.status)
      = some .recycle ∧
    (load (any.share_object reachable_store 0).2.objects 0).map (·.status)
      = some .deposit := by
  decide

/-- C13 (amended).  No operation of an instance, a proxy, a holder or a variable sets the
`reachable` status: an instance that is `reachable` after the call was at the same address
and `reachable` before it.  Apart from `mark_as_rvalue`, `share_object` and the constructor
from a holder, which overwrite the status, no operation clears it either: an instance that
is `reachable` before the call and still exists after it is `reachable` after it; for both
forms of `assign` this holds except at the address of the instance that the call destroys,
where the duplicate may live: the instance destroyed by the release of the proxy, or the
instance of `this` destroyed in place, which takes `raw` set, the authority `normal` and,
for `assign(o, raw)`, `o` another variable that holds another proxy around an instance of
authority `normal`. -/
theorem C13_reachable (tr : Traits V) (s : State V) (this obj T rc : Nat) (raw value : Bool)
    (v : V) (holder : any_holder) (d : Option Nat) (a : object_authority) :
    (NoNewReach s.objects (any_object.kill s this).2.objects ∧
      NoNewReach s.objects (proxy.alloc_authority s a rc d).2.objects ∧
      NoNewReach s.objects (proxy.free s this).2.objects ∧
      NoNewReach s.objects (any_holder.replace s holder d).2.objects ∧
      NoNewReach s.objects (any.swap s this obj raw).2.objects ∧
      NoNewReach s.objects (any.clone s this).2.objects ∧
      NoNewReach s.objects (any.try_move s this).2.objects ∧
      NoNewReach s.objects (any.make s T v).2.objects ∧
      NoNewReach s.objects (any.make_protect s T v).2.objects ∧
      NoNewReach s.objects (any.make_constant s T v).2.objects ∧
      NoNewReach s.objects (any.ctor_default s).2.objects ∧
      NoNewReach s.objects (any.ctor_holder s holder).2.objects ∧
      NoNewReach s.objects (any.ctor_value s T v).2.objects ∧
      NoNewReach s.objects (any.ctor_copy s this).2.objects ∧
      NoNewReach s.objects (any.ctor_move s this).2.objects ∧
      NoNewReach s.objects (any.dtor s this).2.objects ∧
      NoNewReach s.objects (any.share_object s this).2.objects ∧
      NoNewReach s.objects (any.get_ext tr s this).2.objects ∧
      NoNewReach s.objects (any.mark_as_rvalue s this value).2.objects ∧
      NoNewReach s.objects (any.protect s this).2.objects ∧
      NoNewReach s.objects (any.constant s this).2.objects ∧
      NoNewReach s.objects (any.operator_assign s this obj).2.objects ∧
      NoNewReach s.objects (any.operator_assign_move s this obj).2.objects ∧
      NoNewReach s.objects (any.val s this T raw).2.objects ∧
      NoNewReach s.objects (any.assign s this obj raw).2.objects ∧
      NoNewReach s.objects (any.assign_value s this T v raw).2.objects) ∧
    (ReachKept s.objects (any_object.kill s this).2.objects ∧
      ReachKept s.objects (proxy.alloc_authority s a rc d).2.objects ∧
      ReachKept s.objects (proxy.free s this).2.objects ∧
      ReachKept s.objects (any_holder.replace s holder d).2.objects ∧
      ReachKept s.objects (any.swap s this obj raw).2.objects ∧
      ReachKept s.objects (any.clone s this).2.objects ∧
      ReachKept s.objects (any.try_move s this).2.objects ∧
      ReachKept s.objects (any.make s T v).2.objects ∧
      ReachKept s.objects (any.make_protect s T v).2.objects ∧
      ReachKept s.objects (any.make_constant s T v).2.objects ∧
      ReachKept s.objects (any.ctor_default s).2.objects ∧
      ReachKept s.objects (any.ctor_value s T v).2.objects ∧
      ReachKept s.objects (any.ctor_copy s this).2.objects ∧
      ReachKept s.objects (any.ctor_move s this).2.objects ∧
      ReachKept s.objects (any.dtor s this).2.objects ∧
      ReachKept s.objects (any.get_ext tr s this).2.objects ∧
      ReachKept s.objects (any.protect s this).2.objects ∧
      ReachKept s.objects (any.constant s this).2.objects ∧
      ReachKept s.objects (any.operator_assign s this obj).2.objects ∧
      ReachKept s.objects (any.operator_assign_move s this obj).2.objects ∧
      ReachKept s.objects (any.val s this T raw).2.objects) ∧
    (∀ x ob ob1, load s.objects x = some ob →
      load (any.assign s this obj raw).2.objects x = some ob1 →
      (ob.status = .reachable → ob1.status = .reachable) ∨ any.releases s this x = true ∨
        (raw = true ∧ any.instance s this = some x ∧ obj ≠ this ∧ ob.authority = .normal ∧
          ∃ q qr o2 ob2, load s.handles obj = some (some q) ∧
            load s.handles this ≠ some (some q) ∧ s.target q = some (qr, o2, ob2) ∧
            ob2.authority = .normal)) ∧
    (∀ x ob ob1, load s.objects x = some ob →
      load (any.assign_value s this T v raw).2.objects x = some ob1 →
      (ob.status = .reachable → ob1.status = .reachable) ∨ any.releases s this x = true ∨
        (raw = true ∧ any.instance s this = some x ∧ ob.authority = .normal)) := by
  refine ⟨⟨kill_nnr s this, proxy_alloc_authority_nnr s a rc d, free_nnr s this,
      replace_nnr s holder d, nnr_of_eq (swap_objects s this obj raw), clone_nnr s this,
      try_move_nnr s this, make_nnr s T v, make_protect_nnr s T v, make_constant_nnr s T v,
      nnr_refl _, ctor_holder_nnr s holder, ctor_value_nnr s T v,
      nnr_of_eq (ctor_copy_objects s this), nnr_of_eq (ctor_move_objects s this),
      dtor_nnr s this, share_object_nnr s this, nnr_of_eq (get_ext_objects tr s this),
      mark_as_rvalue_nnr s this value, protect_nnr s this, constant_nnr s this,
      operator_assign_nnr s this obj, nnr_of_eq (operator_assign_move_objects s this obj),
      val_nnr s this T raw, assign_nnr s this obj raw, assign_value_nnr s this T v raw⟩,
    ⟨reachKept_of_shrunkR (kill_shrunkR s this),
      reachKept_of_keptR (proxy_alloc_authority_keptR s a rc d),
      reachKept_of_shrunkR (free_shrunkR s this),
      reachKept_of_shrunkR (replace_shrunkR s holder d),
      reachKept_of_eq (swap_objects s this obj raw), clone_reachKept s this,
      reachKept_of_keptR (try_move_keptR s this), reachKept_of_keptR (make_keptR s T v),
      reachKept_of_keptR (make_protect_keptR s T v),
      reachKept_of_keptR (make_constant_keptR s T v), reachKept_refl _,
      reachKept_of_keptR (ctor_value_keptR s T v), reachKept_of_eq (ctor_copy_objects s this),
      reachKept_of_eq (ctor_move_objects s this), reachKept_of_shrunkR (dtor_shrunkR s this),
      reachKept_of_eq (get_ext_objects tr s this), reachKept_of_keptR (protect_keptR s this),
      reachKept_of_keptR (constant_keptR s this),
      reachKept_of_shrunkR (operator_assign_shrunkR s this obj),
      reachKept_of_eq (operator_assign_move_objects s this obj), val_reachKept s this T raw⟩,
    fun x ob ob1 => assign_reach_exact s this obj x raw ob ob1,
    fun x ob ob1 => assign_value_reach_exact s this T x v raw ob ob1⟩

/-- C13 on the store with a `reachable` instance: `a.protect()` leaves it `reachable`, and
what is `reachable` after `a.protect()` was so before. -/
theorem C13_reachable_witness :
    (object_status.reachable = .reachable →
      ({ status := .reachable, authority := .protect, type := 0, mDat := 1 } :
        any_object Int).status = .reachable) ∧
    ∃ ob, load reachable_store.objects 0 = some ob ∧ ob.status = .reachable :=
  have h := C13_reachable sample_traits reachable_store 0 0 0 1 false false 0
    { object := none } none .normal
  ⟨h.2.1.2.2.2.2.2.2.2.2.2.2.2.2.2.2.2.2.1 0
      { status := .reachable, type := 0, mDat := 1 }
      { status := .reachable, authority := .protect, type := 0, mDat := 1 }
      (by decide) (by decide),
    h.1.2.2.2.2.2.2.2.2.2.2.2.2.2.2.2.2.2.2.2.1 0
      { status := .reachable, authority := .protect, type := 0, mDat := 1 }
      (by decide) rfl⟩

/-- C14 (equality) for live variables `a` and `b`: `a == b` is true when both are empty, is
the instance comparison when both own an instance, and is false when exactly one is empty.
The instance comparison is true exactly when both instances have the same stored type and the
per-type equality accepts the two payloads, so variables of different stored types are never
equal.  `a != b` is the negation of `a == b`. -/
theorem C14_equality (tr : Traits V) (s : State V) (a b : Nat) (ma mb : Option Nat)
    (ha : load s.handles a = some ma) (hb : load s.handles b = some mb) :
    (ma = none → mb = none → any.operator_eq tr s a b = .ok true) ∧
    (∀ p q pr qr o1 o2 ob1 ob2, ma = some p → mb = some q →
      s.target p = some (pr, o1, ob1) → s.target q = some (qr, o2, ob2) →
      any.operator_eq tr s a b = .ok (any_object.compare tr ob1 ob2) ∧
      (any_object.compare tr ob1 ob2 = true ↔
        (ob2.type = ob1.type ∧ tr.compare ob1.type ob1.mDat ob2.mDat = true)) ∧
      (ob2.type ≠ ob1.type → any.operator_eq tr s a b = .ok false)) ∧
    (ma.isSome ≠ mb.isSome → any.operator_eq tr s a b = .ok false) ∧
    (∀ r, any.operator_eq tr s a b = .ok r → any.operator_ne tr s a b = .ok (!r)) := by
  refine ⟨?_, ?_, ?_, ?_⟩
  · intro h1 h2
    subst h1 h2
    simp [any.operator_eq, any.compare, ha, hb]
  · intro p q pr qr o1 o2 ob1 ob2 h1 h2 hp hq
    subst h1 h2
    have he : any.operator_eq tr s a b = .ok (any_object.compare tr ob1 ob2) := by
      simp [any.operator_eq, any.compare, ha, hb, hp, hq]
    refine ⟨he, ?_, ?_⟩
    · simp [any_object.compare]
    · intro hne
      rw [he]
      simp [any_object.compare, hne]
  · intro hne
    cases ma <;> cases mb <;> simp_all [any.operator_eq, any.compare]
  · intro r hr
    simp only [any.operator_eq] at hr
    simp [any.operator_ne, hr]

/-- C14 on the sample store: the empty `n` equals itself and differs from `a`; `a` (3) and
`b` (4) differ, and `a != b` holds. -/
theorem C14_equality_witness :
    any.operator_eq sample_traits sample_store 1 1 = .ok true ∧
    any.operator_eq sample_traits sample_store 1 0 = .ok false ∧
    any.operator_eq sample_traits sample_store 0 2 = .ok false ∧
    any.operator_ne sample_traits sample_store 0 2 = .ok true :=
  ⟨(C14_equality sample_traits sample_store 1 1 none none (by decide) (by decide)).1 rfl rfl,
    (C14_equality sample_traits sample_store 1 0 none (some 0) (by decide) (by decide)).2.2.1
      (by decide),
    ((C14_equality sample_traits sample_store 0 2 (some 0) (some 1) (by decide) (by decide)).2.1
      0 1 { refcount := 1, data := some 0 } { refcount := 1, data := some 1 } 0 1
      { authority := .protect, type := 0, mDat := 3 } { type := 0, mDat := 4 }
      rfl rfl (by decide) (by decide)).1,
    (C14_equality sample_traits sample_store 0 2 (some 0) (some 1) (by decide) (by decide)).2.2.2
      false (by decide)⟩

/-- C15 (hash agrees with equality): when the per-type hash sends payloads that the per-type
equality accepts to the same value, `a == b` implies that `a.hash()` and `b.hash()` return
the same number.  The hash of an empty variable is the hash of the null pointer, and that
of a variable owning an instance is the instance's per-type hash. -/
theorem C15_hash_agrees (tr : Traits V)
    (hh : ∀ T x y, tr.compare T x y = true → tr.hash T x = tr.hash T y)
    (s : State V) (a b : Nat) (heq : any.operator_eq tr s a b = .ok true) :
    (∃ n, any.hash tr s a = .ok n ∧ any.hash tr s b = .ok n) ∧
    (load s.handles a = some none → any.hash tr s a = .ok tr.hash_null) ∧
    (∀ p pr o ob, load s.handles a = some (some p) → s.target p = some (pr, o, ob) →
      any.hash tr s a = .ok (tr.hash ob.type ob.mDat)) := by
  refine ⟨?_, ?_, ?_⟩
  · simp only [any.operator_eq, any.compare] at heq
    rcases ha : load s.handles a with _ | _ | p
    · simp [ha] at heq
    · rcases hb : load s.handles b with _ | _ | q
      · simp [ha, hb] at heq
      · exact ⟨tr.hash_null, by simp [any.hash, ha], by simp [any.hash, hb]⟩
      · simp [ha, hb] at heq
    · rcases hb : load s.handles b with _ | _ | q
      · simp [ha, hb] at heq
      · simp [ha, hb] at heq
      · rcases hp : s.target p with _ | ⟨pr, o1, ob1⟩
        · simp [ha, hb, hp] at heq
        · rcases hq : s.target q with _ | ⟨qr, o2, ob2⟩
          · simp [ha, hb, hp, hq] at heq
          · simp only [ha, hb, hp, hq, any_object.compare] at heq
            have hc : ob2.type = ob1.type ∧ tr.compare ob1.type ob1.mDat ob2.mDat = true := by
              by_cases ht : ob2.type = ob1.type
              · simpa [ht] using heq
              · simp [ht] at heq
            refine ⟨tr.hash ob1.type ob1.mDat, by simp [any.hash, ha, hp, any_object.hash], ?_⟩
            simp [any.hash, hb, hq, any_object.hash, hc.1, hh _ _ _ hc.2]
  · intro ha
    simp [any.hash, ha]
  · intro p pr o ob ha hp
    simp [any.hash, ha, hp, any_object.hash]

/-- C15 on the sample store after `b = a`: the two variables are equal and hash alike. -/
theorem C15_hash_agrees_witness :
    ∃ n, any.hash sample_traits (any.operator_assign sample_store 2 0).2 0 = .ok n ∧
      any.hash sample_traits (any.operator_assign sample_store 2 0).2 2 = .ok n :=
  (C15_hash_agrees sample_traits
    (by
      intro T x y h
      have hxy : x = y := by simpa [sample_traits] using h
      rw [hxy])
    (any.operator_assign sample_store 2 0).2 0 2 (by decide)).1

/-- C18 refuted as stated: in the store where `a` owns the proxy of count 1 around an
instance on deposit, `a.assign(b, true)` succeeds and the instance is gone afterwards, while
the proxy of `a` is still there with count 1: no proxy was released, and the instance was on
deposit. -/
theorem C18_counterexample :
    any.instance deposit_store 1 = some 1 ∧
    (load deposit_store.objects 1).map (·.status) = some .deposit ∧
    (load deposit_store.proxies 1).map (·.refcount) = some 1 ∧
    (any.assign deposit_store 1 2 true).1 = .ok () ∧
    load (any.assign deposit_store 1 2 true).2.objects 1 = none ∧
    (load (any.assign deposit_store 1 2 true).2.proxies 1).map (·.refcount) = some 1 ∧
    any.releases deposit_store 1 1 = false := by
  decide

/-- C18 (amended).  Construction (also from a holder), copy and move construction, `swap`,
move assignment, `try_move` and `mark_as_rvalue` destroy no instance.  Under destruction,
`clone`, `val` and copy assignment, an instance that is gone after the call was destroyed by
the release of the proxy of `this`; under both forms of `assign` it was destroyed by that
release or it is the instance of `this`, destroyed in place, which takes `raw` set, the
authority `normal` and, for `assign(o, raw)`, `o` another variable that holds another proxy
around an instance of authority `normal`.  Such a release happens only when the count of the
proxy drops to 0, and it never destroys an instance on deposit. -/
theorem C18_destruction (s : State V) (this obj T : Nat) (raw value : Bool) (v : V)
    (holder : any_holder) :
    (Alive s.objects (any.ctor_default s).2.objects ∧
      Alive s.objects (any.ctor_value s T v).2.objects ∧
      Alive s.objects (any.make s T v).2.objects ∧
      Alive s.objects (any.make_protect s T v).2.objects ∧
      Alive s.objects (any.make_constant s T v).2.objects ∧
      Alive s.objects (any.ctor_copy s this).2.objects ∧
      Alive s.objects (any.ctor_move s this).2.objects ∧
      Alive s.objects (any.swap s this obj raw).2.objects ∧
      Alive s.objects (any.operator_assign_move s this obj).2.objects ∧
      Alive s.objects (any.try_move s this).2.objects ∧
      Alive s.objects (any.mark_as_rvalue s this value).2.objects ∧
      Alive s.objects (any.ctor_holder s holder).2.objects) ∧
    (OnlyReleased s this (any.dtor s this).2.objects ∧
      OnlyReleased s this (any.clone s this).2.objects ∧
      OnlyReleased s this (any.val s this T raw).2.objects ∧
      OnlyReleased s this (any.operator_assign s this obj).2.objects) ∧
    (∀ x ob, load s.objects x = some ob → load (any.assign s this obj raw).2.objects x = none →
      any.releases s this x = true ∨
        (raw = true ∧ any.instance s this = some x ∧ obj ≠ this ∧ ob.authority = .normal ∧
          ∃ q qr o2 ob2, load s.handles obj = some (some q) ∧
            load s.handles this ≠ some (some q) ∧ s.target q = some (qr, o2, ob2) ∧
            ob2.authority = .normal)) ∧
    (∀ x ob, load s.objects x = some ob →
      load (any.assign_value s this T v raw).2.objects x = none →
      any.releases s this x = true ∨
        (raw = true ∧ any.instance s this = some x ∧ ob.authority = .normal)) ∧
    (∀ x, any.releases s this x = true →
      ∃ p pr ob, load s.handles this = some (some p) ∧ s.target p = some (pr, x, ob) ∧
        size_dec pr.refcount = 0 ∧ ob.status ≠ .deposit) :=
  ⟨⟨alive_refl _, alive_put_some _ _ _, alive_put_some _ _ _,
      alive_of_keptR (make_protect_keptR s T v), alive_of_keptR (make_constant_keptR s T v),
      alive_of_eq (ctor_copy_objects s this), alive_of_eq (ctor_move_objects s this),
      alive_of_eq (swap_objects s this obj raw),
      alive_of_eq (operator_assign_move_objects s this obj),
      alive_of_keptR (try_move_keptR s this), mark_as_rvalue_alive s this value,
      ctor_holder_alive s holder⟩,
    ⟨dtor_only_released s this, clone_only_released s this, val_only_released s this T raw,
      operator_assign_only_released s this obj⟩,
    fun x ob => assign_gone_exact s this obj x raw ob,
    fun x ob => assign_value_gone_exact s this T x v raw ob,
    fun x => releases_spec s this x⟩

/-- C18 on the sample store: destroying `b`, the only owner of its proxy, destroys the
instance at address 1 by the release of that proxy, whose count drops to 0. -/
theorem C18_destruction_witness :
    load (any.dtor sample_store 2).2.objects 1 = none ∧
    any.releases sample_store 2 1 = true ∧
    ∃ p pr ob, load sample_store.handles 2 = some (some p) ∧
      sample_store.target p = some (pr, 1, ob) ∧ size_dec pr.refcount = 0 ∧
      ob.status ≠ .deposit :=
  have h := C18_destruction sample_store 2 0 0 false false 0 { object := none }
  ⟨by decide, h.2.1.1 1 { type := 0, mDat := 4 } (by decide) (by decide),
    h.2.2.2.2 1 (h.2.1.1 1 { type := 0, mDat := 4 } (by decide) (by decide))⟩

/-- C20 (copy-on-write drops protection): let `a` own the live proxy `p` of count `n ≥ 1`
around the instance `o`, whatever its authority and status.  After `a.clone()` the instance
`a` owns has authority `normal` and status `normal` (and the old payload), so `is_protect()`
and `is_rvalue()` are false; when `n > 1` the original instance is exactly what it was.
A successful `a.val<T>(false)` leaves the same store. -/
theorem C20_clone_drops_protection (s : State V) (a p o : Nat) (pr : proxy)
    (ob : any_object V)
    (ha : load s.handles a = some (some p)) (ht : s.target p = some (pr, o, ob))
    (h1 : 1 ≤ pr.refcount) (hmax : pr.refcount < size_max) :
    (∃ p1 pr1 o1 ob1, load (any.clone s a).2.handles a = some (some p1) ∧
      (any.clone s a).2.target p1 = some (pr1, o1, ob1) ∧
      ob1.authority = .normal ∧ ob1.status = .normal ∧ ob1.mDat = ob.mDat ∧
      (ob.authority ≠ .constant → (any.val s a ob.type false).1 = .ok o1)) ∧
    any.is_protect (any.clone s a).2 a = .ok false ∧
    any.is_rvalue (any.clone s a).2 a = .ok false ∧
    (1 < pr.refcount → load (any.clone s a).2.objects o = some ob) ∧
    (ob.authority ≠ .constant → (any.val s a ob.type false).2 = (any.clone s a).2) := by
  obtain ⟨_, _, _, _, _, k6, k7, _, _, k10, k11⟩ := clone_spec s a p o pr ob ha ht h1 hmax
  refine ⟨⟨_, _, _, _, k6, k7, rfl, rfl, rfl, fun h => by rw [k10 h]⟩, ?_, ?_, k11,
    fun h => by rw [k10 h]⟩
  · simp [any.is_protect, k6, k7]
  · simp [any.is_rvalue, k6, k7]

/-- C20 on the sample store: the protected `a` is no longer protected after `a.clone()`, and
after `b = a; b.clone()` the shared original is still protected. -/
theorem C20_clone_drops_protection_witness :
    any.is_protect sample_store 0 = .ok true ∧
    any.is_protect (any.clone sample_store 0).2 0 = .ok false ∧
    load (any.clone (any.operator_assign sample_store 2 0).2 2).2.objects 0
      = some { authority := .protect, type := 0, mDat := 3 } :=
  ⟨by decide,
    (C20_clone_drops_protection sample_store 0 0 0 { refcount := 1, data := some 0 }
      { authority := .protect, type := 0, mDat := 3 } (by decide) (by decide) (by decide)
      (by decide)).2.1,
    (C20_clone_drops_protection (any.operator_assign sample_store 2 0).2 2 0 0
      { refcount := 2, data := some 0 } { authority := .protect, type := 0, mDat := 3 }
      (by decide) (by decide) (by decide) (by decide)).2.2.2.1 (by decide)⟩

end claims

end cs_impl
